import Mathlib

/-
Shallow embedding of the node-ctypes native addon (sources under src/src).
The embedding fixes the LP64 64-bit Unix platform configuration, i.e. the
branches the source selects when _WIN32 is not defined and pointers are
8 bytes wide: sizeof(void*) = 8, sizeof(long) = 8, sizeof(unsigned long) = 8,
sizeof(wchar_t) = 4, sizeof(size_t) = sizeof(ssize_t) = 8.
-/

namespace NodeCtypes

/-- CType enumeration from src/src/types.h. -/
inductive CType where
  | CTYPES_VOID
  | CTYPES_INT8
  | CTYPES_UINT8
  | CTYPES_INT16
  | CTYPES_UINT16
  | CTYPES_INT32
  | CTYPES_UINT32
  | CTYPES_INT64
  | CTYPES_UINT64
  | CTYPES_FLOAT
  | CTYPES_DOUBLE
  | CTYPES_POINTER
  | CTYPES_STRING
  | CTYPES_WSTRING
  | CTYPES_WCHAR
  | CTYPES_BOOL
  | CTYPES_SIZE_T
  | CTYPES_SSIZE_T
  | CTYPES_LONG
  | CTYPES_ULONG
  | CTYPES_STRUCT
  | CTYPES_UNION
  | CTYPES_ARRAY
deriving DecidableEq, Repr

open CType

/-- CTypeSize from src/src/types.cc (LP64 instantiation of the sizeof calls). -/
def CTypeSize : CType → Nat
  | CTYPES_VOID => 0
  | CTYPES_INT8 => 1
  | CTYPES_UINT8 => 1
  | CTYPES_INT16 => 2
  | CTYPES_UINT16 => 2
  | CTYPES_INT32 => 4
  | CTYPES_UINT32 => 4
  | CTYPES_INT64 => 8
  | CTYPES_UINT64 => 8
  | CTYPES_FLOAT => 4
  | CTYPES_DOUBLE => 8
  | CTYPES_POINTER => 8
  | CTYPES_STRING => 8
  | CTYPES_WSTRING => 8
  | CTYPES_WCHAR => 4
  | CTYPES_BOOL => 1
  | CTYPES_SIZE_T => 8
  | CTYPES_SSIZE_T => 8
  | CTYPES_LONG => 8
  | CTYPES_ULONG => 8
  | CTYPES_STRUCT => 0
  | CTYPES_UNION => 0
  | CTYPES_ARRAY => 0

/-- Primitive branch of StructInfo::GetTypeAlignment (src/src/struct.cc,
the switch executed when neither a nested struct nor an array is present;
sizeof(long) = 8 and sizeof(void*) = 8 on LP64). -/
def primAlignment : CType → Nat
  | CTYPES_INT8 => 1
  | CTYPES_UINT8 => 1
  | CTYPES_BOOL => 1
  | CTYPES_INT16 => 2
  | CTYPES_UINT16 => 2
  | CTYPES_WCHAR => 2
  | CTYPES_INT32 => 4
  | CTYPES_UINT32 => 4
  | CTYPES_FLOAT => 4
  | CTYPES_LONG => 8
  | CTYPES_ULONG => 8
  | CTYPES_INT64 => 8
  | CTYPES_UINT64 => 8
  | CTYPES_DOUBLE => 8
  | CTYPES_POINTER => 8
  | CTYPES_STRING => 8
  | CTYPES_WSTRING => 8
  | CTYPES_SIZE_T => 8
  | CTYPES_SSIZE_T => 8
  | _ => 1

/-- Element-alignment switch from the ArrayInfo constructor in
src/src/array.cc (it is a distinct table from struct.cc: LONG and ULONG get
alignment 4 there). -/
def arrayElemAlignment : CType → Nat
  | CTYPES_INT8 => 1
  | CTYPES_UINT8 => 1
  | CTYPES_BOOL => 1
  | CTYPES_INT16 => 2
  | CTYPES_UINT16 => 2
  | CTYPES_WCHAR => 2
  | CTYPES_INT32 => 4
  | CTYPES_UINT32 => 4
  | CTYPES_FLOAT => 4
  | CTYPES_LONG => 4
  | CTYPES_ULONG => 4
  | CTYPES_INT64 => 8
  | CTYPES_UINT64 => 8
  | CTYPES_DOUBLE => 8
  | CTYPES_POINTER => 8
  | CTYPES_STRING => 8
  | CTYPES_WSTRING => 8
  | CTYPES_SIZE_T => 8
  | CTYPES_SSIZE_T => 8
  | _ => 1

/-
StructInfo / FieldInfo / ArrayInfo (src/src/struct.h, src/src/array.h).
The C++ FieldInfo carries two nullable pointers struct_type and array_type;
every consumer checks array_type first, then struct_type, then treats the
field as primitive, so the pair is embedded as the single discriminated
FieldKind.  size_, alignment_ and the per-field offsets are stored state,
written by the constructor, AddField/AddArrayField and CalculateLayout,
exactly as in the C++ classes.
-/

mutual

inductive StructInfo where
  | mk (isUnion : Bool) (size : Nat) (alignment : Nat) (fields : List FieldInfo)

inductive FieldInfo where
  | mk (name : String) (type : CType) (offset : Nat) (size : Nat)
      (kind : FieldKind) (isAnonymous : Bool)

inductive FieldKind where
  | prim
  | nested (s : StructInfo)
  | arr (a : ArrayInfo)

inductive ArrayInfo where
  | mk (elementType : CType) (count : Nat) (elementSize : Nat) (size : Nat)
      (alignment : Nat) (elementStruct : Option StructInfo)

end

def StructInfo.isUnion : StructInfo → Bool
  | .mk u _ _ _ => u

def StructInfo.size : StructInfo → Nat
  | .mk _ sz _ _ => sz

def StructInfo.alignment : StructInfo → Nat
  | .mk _ _ al _ => al

def StructInfo.fields : StructInfo → List FieldInfo
  | .mk _ _ _ fs => fs

def FieldInfo.name : FieldInfo → String
  | .mk n _ _ _ _ _ => n

def FieldInfo.type : FieldInfo → CType
  | .mk _ t _ _ _ _ => t

def FieldInfo.offset : FieldInfo → Nat
  | .mk _ _ o _ _ _ => o

def FieldInfo.size : FieldInfo → Nat
  | .mk _ _ _ sz _ _ => sz

def FieldInfo.kind : FieldInfo → FieldKind
  | .mk _ _ _ _ k _ => k

def FieldInfo.isAnonymous : FieldInfo → Bool
  | .mk _ _ _ _ _ a => a

def FieldInfo.setOffset : FieldInfo → Nat → FieldInfo
  | .mk n t _ sz k a, o => .mk n t o sz k a

def ArrayInfo.elementType : ArrayInfo → CType
  | .mk t _ _ _ _ _ => t

def ArrayInfo.count : ArrayInfo → Nat
  | .mk _ c _ _ _ _ => c

def ArrayInfo.elementSize : ArrayInfo → Nat
  | .mk _ _ es _ _ _ => es

def ArrayInfo.size : ArrayInfo → Nat
  | .mk _ _ _ sz _ _ => sz

def ArrayInfo.alignment : ArrayInfo → Nat
  | .mk _ _ _ _ al _ => al

def ArrayInfo.elementStruct : ArrayInfo → Option StructInfo
  | .mk _ _ _ _ _ es => es

/-- ArrayInfo constructor from src/src/array.cc: element size and alignment
come from the element struct when present, otherwise from CTypeSize and the
array.cc alignment switch; size_ = element_size_ * count_. -/
def ArrayInfo.make (elementType : CType) (count : Nat)
    (elementStruct : Option StructInfo) : ArrayInfo :=
  match elementStruct with
  | some es => .mk elementType count es.size (es.size * count) es.alignment elementStruct
  | none => .mk elementType count (CTypeSize elementType)
      (CTypeSize elementType * count) (arrayElemAlignment elementType) none

/-- StructInfo::GetTypeAlignment (src/src/struct.cc): the array branch is
checked first, then the nested-struct branch, then the primitive switch. -/
def StructInfo.GetTypeAlignment (type : CType) (kind : FieldKind) : Nat :=
  match kind with
  | .arr a => a.alignment
  | .nested s => s.alignment
  | .prim => primAlignment type

/-- Alignment of a field, as every use site of GetTypeAlignment computes it:
GetTypeAlignment(field.type, field.struct_type, field.array_type). -/
def fieldAlignment (f : FieldInfo) : Nat :=
  StructInfo.GetTypeAlignment f.type f.kind

/-- StructInfo::AddField (src/src/struct.cc): appends a field whose size is
the nested struct's size when one is given, CTypeSize(type) otherwise.
The offset is left 0 until CalculateLayout assigns it. -/
def StructInfo.AddField (s : StructInfo) (name : String) (type : CType)
    (nested : Option StructInfo) (isAnonymous : Bool) : StructInfo :=
  let fsize := match nested with
    | some n => n.size
    | none => CTypeSize type
  let kind : FieldKind := match nested with
    | some n => .nested n
    | none => .prim
  .mk s.isUnion s.size s.alignment
    (s.fields ++ [FieldInfo.mk name type 0 fsize kind isAnonymous])

/-- StructInfo::AddArrayField (src/src/struct.cc): appends an array-typed
field of size array_type->GetSize(). -/
def StructInfo.AddArrayField (s : StructInfo) (name : String)
    (arrayType : ArrayInfo) : StructInfo :=
  .mk s.isUnion s.size s.alignment
    (s.fields ++ [FieldInfo.mk name CTYPES_ARRAY 0 arrayType.size (.arr arrayType) false])

/-- Per-field loop of StructInfo::CalculateLayout (src/src/struct.cc): walks
the fields in declaration order carrying current_offset and max_alignment;
a union field gets offset 0, a struct field gets current_offset padded up to
the field's alignment boundary, after which current_offset advances by the
field's size. -/
def layoutFields (isUnion : Bool) :
    List FieldInfo → Nat → Nat → List FieldInfo × Nat × Nat
  | [], currentOffset, maxAlignment => ([], currentOffset, maxAlignment)
  | f :: rest, currentOffset, maxAlignment =>
    let fa := fieldAlignment f
    let maxAlignment1 := Nat.max maxAlignment fa
    if isUnion then
      let r := layoutFields isUnion rest currentOffset maxAlignment1
      (f.setOffset 0 :: r.1, r.2)
    else
      let padding := (fa - currentOffset % fa) % fa
      let off1 := currentOffset + padding
      let r := layoutFields isUnion rest (off1 + f.size) maxAlignment1
      (f.setOffset off1 :: r.1, r.2)

/-- StructInfo::CalculateLayout (src/src/struct.cc): zero fields give size 0
and alignment 1; otherwise the field loop runs from current_offset = 0 and
max_alignment = 1, a union's size is the maximum field size, a struct's size
is the final offset, and the size is padded up to the struct alignment. -/
def StructInfo.CalculateLayout (s : StructInfo) : StructInfo :=
  match s with
  | .mk isUnion _ _ fields =>
    if fields.isEmpty then
      .mk isUnion 0 1 fields
    else
      let r := layoutFields isUnion fields 0 1
      let size0 := if isUnion then r.1.foldl (fun acc f => Nat.max acc f.size) 0 else r.2.1
      let finalPadding := (r.2.2 - size0 % r.2.2) % r.2.2
      .mk isUnion (size0 + finalPadding) r.2.2 r.1

/-- Operations of the StructType JavaScript wrapper (src/src/struct.cc):
addField dispatches to AddField or AddArrayField and recomputes the layout. -/
inductive BuildOp where
  | field (name : String) (type : CType) (nested : Option StructInfo) (isAnonymous : Bool)
  | arrayField (name : String) (arrayType : ArrayInfo)

def applyOp (s : StructInfo) : BuildOp → StructInfo
  | .field name type nested anon => s.AddField name type nested anon
  | .arrayField name a => s.AddArrayField name a

/-- StructType::AddField (src/src/struct.cc) appends the field and calls
CalculateLayout immediately; build replays a sequence of such calls starting
from the StructInfo constructor state (size 0, alignment 1, no fields). -/
def build (isUnion : Bool) (ops : List BuildOp) : StructInfo :=
  ops.foldl (fun s op => (applyOp s op).CalculateLayout) (.mk isUnion 0 1 [])

/-- Nested struct and array arguments handed to addField have positive
stored alignment: the StructInfo constructor initialises alignment_ to 1,
CalculateLayout only raises it, and the ArrayInfo constructor writes a
positive value in every branch. -/
def opAlignPos : BuildOp → Bool
  | .field _ _ none _ => true
  | .field _ _ (some n) _ => 0 < n.alignment
  | .arrayField _ a => 0 < a.alignment

theorem primAlignment_pos (t : CType) : 0 < primAlignment t := by
  cases t <;> decide

theorem arrayElemAlignment_pos (t : CType) : 0 < arrayElemAlignment t := by
  cases t <;> decide

theorem fieldAlignment_setOffset (f : FieldInfo) (o : Nat) :
    fieldAlignment (f.setOffset o) = fieldAlignment f := by
  cases f with
  | mk n t off sz k a => rfl

theorem size_setOffset (f : FieldInfo) (o : Nat) :
    (f.setOffset o).size = f.size := by
  cases f with
  | mk n t off sz k a => rfl

theorem offset_setOffset (f : FieldInfo) (o : Nat) :
    (f.setOffset o).offset = o := by
  cases f with
  | mk n t off sz k a => rfl

theorem alignPad_mod (s a : Nat) (ha : 0 < a) :
    (s + (a - s % a) % a) % a = 0 := by
  rcases Nat.eq_zero_or_pos (s % a) with h | h
  · rw [h, Nat.sub_zero, Nat.mod_self, Nat.add_zero, h]
  · have hlt : s % a < a := Nat.mod_lt _ ha
    have h1 : (a - s % a) % a = a - s % a := Nat.mod_eq_of_lt (by omega)
    rw [h1]
    have h2 : s + (a - s % a) = a * (s / a) + a := by
      have := Nat.div_add_mod s a
      omega
    rw [h2, Nat.mul_add_mod, Nat.mod_self]

theorem alignPad_lt (s a : Nat) (ha : 0 < a) : (a - s % a) % a < a :=
  Nat.mod_lt _ ha

theorem foldl_max_ge_init (l : List Nat) (a : Nat) : a ≤ l.foldl Nat.max a := by
  induction l generalizing a with
  | nil => simp
  | cons x xs ih =>
    simp only [List.foldl_cons]
    exact le_trans (Nat.le_max_left a x) (ih (Nat.max a x))

theorem foldl_max_ge_mem (l : List Nat) :
    ∀ (a x : Nat), x ∈ l → x ≤ l.foldl Nat.max a := by
  induction l with
  | nil => intro a x hx; cases hx
  | cons y ys ih =>
    intro a x hx
    simp only [List.foldl_cons]
    rcases List.mem_cons.mp hx with h | h
    · subst h
      exact le_trans (Nat.le_max_right a x) (foldl_max_ge_init ys _)
    · exact ih _ x h

theorem foldl_max_attained (l : List Nat) (a : Nat) :
    l.foldl Nat.max a = a ∨ l.foldl Nat.max a ∈ l := by
  induction l generalizing a with
  | nil => left; rfl
  | cons x xs ih =>
    simp only [List.foldl_cons]
    rcases ih (Nat.max a x) with h | h
    · rcases Nat.le_total a x with hax | hxa
      · right
        have hmx : Nat.max a x = x := max_eq_right hax
        rw [h, hmx]
        exact List.mem_cons_self x xs
      · left
        have hmx : Nat.max a x = a := max_eq_left hxa
        rw [h, hmx]
    · right
      exact List.mem_cons_of_mem x h

/-- Behaviour of the CalculateLayout field loop on a struct (non-union). -/
theorem layoutFields_struct_spec (fields : List FieldInfo) (off maxAl : Nat)
    (hal : ∀ f ∈ fields, 0 < fieldAlignment f) :
    (∀ f ∈ (layoutFields false fields off maxAl).1, f.offset % fieldAlignment f = 0)
    ∧ (∀ f ∈ (layoutFields false fields off maxAl).1,
        off ≤ f.offset ∧ f.offset + f.size ≤ (layoutFields false fields off maxAl).2.1)
    ∧ (layoutFields false fields off maxAl).1.Pairwise
        (fun a b => a.offset + a.size ≤ b.offset)
    ∧ (layoutFields false fields off maxAl).2.2
        = (fields.map fieldAlignment).foldl Nat.max maxAl
    ∧ (layoutFields false fields off maxAl).1.map fieldAlignment
        = fields.map fieldAlignment
    ∧ (layoutFields false fields off maxAl).1.map FieldInfo.size
        = fields.map FieldInfo.size
    ∧ off ≤ (layoutFields false fields off maxAl).2.1 := by
  induction fields generalizing off maxAl with
  | nil =>
    simp [layoutFields]
  | cons f rest ih =>
    have hfa : 0 < fieldAlignment f := hal f (by simp)
    have halr : ∀ g ∈ rest, 0 < fieldAlignment g := fun g hg => hal g (by simp [hg])
    simp only [layoutFields, if_neg (Bool.false_ne_true)]
    set fa := fieldAlignment f with hfadef
    set padding := (fa - off % fa) % fa with hpad
    set off1 := off + padding with hoff1
    obtain ⟨r1, r2, r3, r4, r5, r6, r7⟩ := ih (off1 + f.size) (Nat.max maxAl fa) halr
    refine ⟨?_, ?_, ?_, ?_, ?_, ?_, ?_⟩
    · intro g hg
      rcases List.mem_cons.mp hg with h | h
      · subst h
        rw [fieldAlignment_setOffset, offset_setOffset, hoff1, hpad, ← hfadef]
        exact alignPad_mod off fa hfa
      · exact r1 g h
    · intro g hg
      rcases List.mem_cons.mp hg with h | h
      · subst h
        rw [offset_setOffset, size_setOffset]
        constructor
        · omega
        · have := r7
          omega
      · have := (r2 g h).1
        have := (r2 g h).2
        constructor
        · omega
        · omega
    · refine List.pairwise_cons.mpr ⟨?_, r3⟩
      intro g hg
      rw [offset_setOffset, size_setOffset]
      exact le_trans (by omega) ((r2 g hg).1)
    · rw [r4]
      simp [List.foldl_cons]
    · simp only [List.map_cons, fieldAlignment_setOffset, r5]
    · simp only [List.map_cons, size_setOffset, r6]
    · omega

/-- Behaviour of the CalculateLayout field loop on a union. -/
theorem layoutFields_union_spec (fields : List FieldInfo) (off maxAl : Nat) :
    (∀ f ∈ (layoutFields true fields off maxAl).1, f.offset = 0)
    ∧ (layoutFields true fields off maxAl).2.2
        = (fields.map fieldAlignment).foldl Nat.max maxAl
    ∧ (layoutFields true fields off maxAl).1.map fieldAlignment
        = fields.map fieldAlignment
    ∧ (layoutFields true fields off maxAl).1.map FieldInfo.size
        = fields.map FieldInfo.size := by
  induction fields generalizing off maxAl with
  | nil => simp [layoutFields]
  | cons f rest ih =>
    simp only [layoutFields, reduceIte]
    obtain ⟨r1, r2, r3, r4⟩ := ih off (Nat.max maxAl (fieldAlignment f))
    refine ⟨?_, ?_, ?_, ?_⟩
    · intro g hg
      rcases List.mem_cons.mp hg with h | h
      · subst h; exact offset_setOffset f 0
      · exact r1 g h
    · rw [r2]; simp [List.foldl_cons]
    · simp only [List.map_cons, fieldAlignment_setOffset, r3]
    · simp only [List.map_cons, size_setOffset, r4]

theorem layoutFields_length (u : Bool) (fields : List FieldInfo) (off maxAl : Nat) :
    (layoutFields u fields off maxAl).1.length = fields.length := by
  induction fields generalizing off maxAl with
  | nil => simp [layoutFields]
  | cons f rest ih =>
    cases u with
    | true =>
      simp [layoutFields, ih]
    | false =>
      simp [layoutFields, ih]

theorem CalculateLayout_fields_length (s : StructInfo) :
    s.CalculateLayout.fields.length = s.fields.length := by
  cases s with
  | mk u sz al fields =>
    by_cases h : fields.isEmpty
    · simp [StructInfo.CalculateLayout, h, StructInfo.fields]
    · simp [StructInfo.CalculateLayout, h, StructInfo.fields, layoutFields_length]

theorem CalculateLayout_isUnion (s : StructInfo) :
    s.CalculateLayout.isUnion = s.isUnion := by
  cases s with
  | mk u sz al fields =>
    by_cases h : fields.isEmpty
    · simp [StructInfo.CalculateLayout, h, StructInfo.isUnion]
    · simp [StructInfo.CalculateLayout, h, StructInfo.isUnion]

/-- Positive field alignment survives membership transport through the map
equality produced by the loop specs. -/
theorem alignPos_of_map_eq {xs ys : List FieldInfo}
    (hmap : xs.map fieldAlignment = ys.map fieldAlignment)
    (hys : ∀ f ∈ ys, 0 < fieldAlignment f) :
    ∀ f ∈ xs, 0 < fieldAlignment f := by
  intro f hf
  have : fieldAlignment f ∈ xs.map fieldAlignment := List.mem_map_of_mem _ hf
  rw [hmap] at this
  obtain ⟨g, hg, hge⟩ := List.mem_map.mp this
  rw [← hge]
  exact hys g hg

/-- Layout invariant a (re)computed non-union struct satisfies. -/
def structInv (s : StructInfo) : Prop :=
  s.isUnion = false
  ∧ (∀ f ∈ s.fields, 0 < fieldAlignment f)
  ∧ (∀ f ∈ s.fields, f.offset % fieldAlignment f = 0)
  ∧ s.fields.Pairwise (fun a b => a.offset + a.size ≤ b.offset)
  ∧ (∀ f ∈ s.fields, f.offset + f.size ≤ s.size)
  ∧ s.size % s.alignment = 0
  ∧ 0 < s.alignment
  ∧ s.alignment = (s.fields.map fieldAlignment).foldl Nat.max 1

theorem structInv_calc (u : Bool) (sz al : Nat) (fields : List FieldInfo)
    (hu : u = false) (hal : ∀ f ∈ fields, 0 < fieldAlignment f) :
    structInv (StructInfo.CalculateLayout (.mk u sz al fields)) := by
  subst hu
  by_cases h : fields.isEmpty
  · have : fields = [] := List.isEmpty_iff.mp h
    subst this
    refine ⟨rfl, ?_, ?_, ?_, ?_, ?_, ?_, ?_⟩ <;>
      simp [StructInfo.CalculateLayout, StructInfo.fields, StructInfo.size,
        StructInfo.alignment, StructInfo.isUnion]
  · obtain ⟨r1, r2, r3, r4, r5, r6, r7⟩ := layoutFields_struct_spec fields 0 1 hal
    have hmaxpos : 0 < (layoutFields false fields 0 1).2.2 := by
      rw [r4]
      exact lt_of_lt_of_le Nat.one_pos (foldl_max_ge_init _ _)
    simp only [StructInfo.CalculateLayout, if_neg h, Bool.false_eq_true, if_false]
    refine ⟨rfl, ?_, ?_, ?_, ?_, ?_, ?_, ?_⟩
    · simp only [StructInfo.fields]
      exact alignPos_of_map_eq r5 hal
    · simp only [StructInfo.fields]
      exact r1
    · simp only [StructInfo.fields]
      exact r3
    · simp only [StructInfo.fields, StructInfo.size]
      intro f hf
      have h1 := (r2 f hf).2
      omega
    · simp only [StructInfo.size, StructInfo.alignment]
      exact alignPad_mod _ _ hmaxpos
    · simp only [StructInfo.alignment]
      exact hmaxpos
    · simp only [StructInfo.alignment, StructInfo.fields]
      rw [r4]
      have := congrArg (fun l => l.foldl Nat.max 1) r5
      simpa using this.symm

/-- Fields appended by AddField / AddArrayField have positive alignment when
the operation's nested struct or array does. -/
theorem applyOp_alignPos (s : StructInfo) (op : BuildOp)
    (hs : ∀ f ∈ s.fields, 0 < fieldAlignment f) (hop : opAlignPos op = true) :
    ∀ f ∈ (applyOp s op).fields, 0 < fieldAlignment f := by
  intro f hf
  cases op with
  | field name type nested anon =>
    cases nested with
    | none =>
      simp only [applyOp, StructInfo.AddField, StructInfo.fields] at hf
      rcases List.mem_append.mp hf with h | h
      · exact hs f h
      · have : f = FieldInfo.mk name type 0 (CTypeSize type) .prim anon := by
          simpa using h
        subst this
        exact primAlignment_pos type
    | some n =>
      simp only [opAlignPos] at hop
      simp only [applyOp, StructInfo.AddField, StructInfo.fields] at hf
      rcases List.mem_append.mp hf with h | h
      · exact hs f h
      · have : f = FieldInfo.mk name type 0 n.size (.nested n) anon := by
          simpa using h
        subst this
        simpa [fieldAlignment, FieldInfo.kind, FieldInfo.type,
          StructInfo.GetTypeAlignment] using hop
  | arrayField name a =>
    simp only [opAlignPos] at hop
    simp only [applyOp, StructInfo.AddArrayField, StructInfo.fields] at hf
    rcases List.mem_append.mp hf with h | h
    · exact hs f h
    · have : f = FieldInfo.mk name CTYPES_ARRAY 0 a.size (.arr a) false := by
        simpa using h
      subst this
      simpa [fieldAlignment, FieldInfo.kind, FieldInfo.type,
        StructInfo.GetTypeAlignment] using hop

theorem applyOp_isUnion (s : StructInfo) (op : BuildOp) :
    (applyOp s op).isUnion = s.isUnion := by
  cases op with
  | field name type nested anon => rfl
  | arrayField name a => rfl

theorem foldl_invariant {α β : Type} (P : α → Prop) (Q : β → Prop)
    (f : α → β → α) (init : α) (l : List β)
    (h0 : P init) (hstep : ∀ a b, P a → Q b → P (f a b)) (hl : ∀ b ∈ l, Q b) :
    P (l.foldl f init) := by
  induction l generalizing init with
  | nil => exact h0
  | cons x xs ih =>
    exact ih (f init x) (hstep init x h0 (hl x (by simp)))
      (fun b hb => hl b (by simp [hb]))

theorem build_structInv (ops : List BuildOp)
    (hops : ∀ op ∈ ops, opAlignPos op = true) :
    structInv (build false ops) := by
  refine foldl_invariant structInv (fun op => opAlignPos op = true) _ _ ops ?_ ?_ hops
  · refine ⟨rfl, ?_, ?_, ?_, ?_, ?_, ?_, ?_⟩ <;>
      simp [StructInfo.fields, StructInfo.size, StructInfo.alignment, StructInfo.isUnion]
  · intro s op hP hQ
    obtain ⟨hu, hpos, _⟩ := hP
    have hpos2 := applyOp_alignPos s op hpos hQ
    have hu2 : (applyOp s op).isUnion = false := by rw [applyOp_isUnion, hu]
    cases happly : applyOp s op with
    | mk u2 sz2 al2 fields2 =>
      rw [happly] at hpos2 hu2
      simp only [StructInfo.isUnion] at hu2
      exact structInv_calc u2 sz2 al2 fields2 hu2 (by
        intro f hf
        exact hpos2 f (by simpa [StructInfo.fields] using hf))

/-- C2: for every non-union struct layout obtained by adding any sequence of
fields (primitive, nested struct, or array) and recomputing the layout,
every field's byte offset is a multiple of that field's alignment, offsets
are non-decreasing in declaration order, and the total size is a multiple of
the struct's alignment, which is the maximum field alignment (1 when there
are no fields). -/
theorem C2_struct_layout_invariants (ops : List BuildOp)
    (hops : ∀ op ∈ ops, opAlignPos op = true) :
    (∀ f ∈ (build false ops).fields, f.offset % fieldAlignment f = 0)
    ∧ (build false ops).fields.Pairwise (fun a b => a.offset ≤ b.offset)
    ∧ (build false ops).size % (build false ops).alignment = 0
    ∧ (build false ops).alignment
        = ((build false ops).fields.map fieldAlignment).foldl Nat.max 1 := by
  obtain ⟨_, _, h3, h4, _, h6, _, h8⟩ := build_structInv ops hops
  refine ⟨h3, ?_, h6, h8⟩
  exact h4.imp (fun {a b} h => by omega)

theorem applyOp_fields_length (s : StructInfo) (op : BuildOp) :
    (applyOp s op).fields.length = s.fields.length + 1 := by
  cases op with
  | field name type nested anon =>
    simp [applyOp, StructInfo.AddField, StructInfo.fields]
  | arrayField name a =>
    simp [applyOp, StructInfo.AddArrayField, StructInfo.fields]

theorem build_fields_length (u : Bool) (ops : List BuildOp) :
    (build u ops).fields.length = ops.length := by
  suffices h : ∀ (l : List BuildOp) (s : StructInfo),
      ((l.foldl (fun s op => (applyOp s op).CalculateLayout) s).fields.length)
        = s.fields.length + l.length by
    have := h ops (.mk u 0 1 [])
    simpa [build, StructInfo.fields] using this
  intro l
  induction l with
  | nil => intro s; simp
  | cons op rest ih =>
    intro s
    simp only [List.foldl_cons, List.length_cons]
    rw [ih, CalculateLayout_fields_length, applyOp_fields_length]
    omega

/-- Layout invariant a (re)computed union satisfies. -/
def unionInv (s : StructInfo) : Prop :=
  s.isUnion = true
  ∧ (∀ f ∈ s.fields, 0 < fieldAlignment f)
  ∧ (s.fields ≠ [] →
      (∀ f ∈ s.fields, f.offset = 0)
      ∧ (∀ f ∈ s.fields, fieldAlignment f ≤ s.alignment)
      ∧ (∃ f ∈ s.fields, fieldAlignment f = s.alignment)
      ∧ s.alignment ∣ s.size
      ∧ (∀ f ∈ s.fields, f.size ≤ s.size)
      ∧ (∀ m, s.alignment ∣ m → (∀ f ∈ s.fields, f.size ≤ m) → s.size ≤ m))

theorem unionInv_calc (u : Bool) (sz al : Nat) (fields : List FieldInfo)
    (hu : u = true) (hal : ∀ f ∈ fields, 0 < fieldAlignment f) :
    unionInv (StructInfo.CalculateLayout (.mk u sz al fields)) := by
  subst hu
  by_cases h : fields.isEmpty
  · have : fields = [] := List.isEmpty_iff.mp h
    subst this
    refine ⟨rfl, ?_, ?_⟩ <;>
      simp [StructInfo.CalculateLayout, StructInfo.fields, StructInfo.isUnion]
  · obtain ⟨r1, r2, r3, r4⟩ := layoutFields_union_spec fields 0 1
    simp only [StructInfo.CalculateLayout, if_neg h, reduceIte]
    set L := (layoutFields true fields 0 1).1 with hL
    have hLne : L ≠ [] := by
      have hlen := layoutFields_length true fields 0 1
      intro hc
      rw [← hL, hc] at hlen
      simp at hlen
      have hfe : fields = [] := by
        cases fields with
        | nil => rfl
        | cons a as => simp at hlen
      rw [hfe] at h
      simp at h
    have hpos : ∀ f ∈ L, 0 < fieldAlignment f := alignPos_of_map_eq r3 hal
    have halign : (layoutFields true fields 0 1).2.2
        = (L.map fieldAlignment).foldl Nat.max 1 := by
      rw [r2, ← r3]
    have hmaxpos : 0 < (layoutFields true fields 0 1).2.2 := by
      rw [halign]
      exact lt_of_lt_of_le Nat.one_pos (foldl_max_ge_init _ _)
    set A := (layoutFields true fields 0 1).2.2 with hA
    set size0 := L.foldl (fun acc f => Nat.max acc f.size) 0 with hsize0
    have hsz0 : size0 = (L.map FieldInfo.size).foldl Nat.max 0 := by
      rw [hsize0, List.foldl_map]
    refine ⟨rfl, ?_, ?_⟩
    · simp only [StructInfo.fields]
      exact hpos
    · intro _
      refine ⟨?_, ?_, ?_, ?_, ?_, ?_⟩
      · simp only [StructInfo.fields]
        exact r1
      · simp only [StructInfo.fields, StructInfo.alignment]
        intro f hf
        rw [halign]
        exact foldl_max_ge_mem _ _ _ (List.mem_map_of_mem _ hf)
      · simp only [StructInfo.fields, StructInfo.alignment]
        rcases foldl_max_attained (L.map fieldAlignment) 1 with hone | hmem
        · obtain ⟨f0, hf0⟩ := List.exists_mem_of_ne_nil L hLne
          refine ⟨f0, hf0, ?_⟩
          have h1 : fieldAlignment f0 ≤ A := by
            rw [halign]
            exact foldl_max_ge_mem _ _ _ (List.mem_map_of_mem _ hf0)
          have h2 : 0 < fieldAlignment f0 := hpos f0 hf0
          have h3 : A = 1 := by rw [halign, hone]
          omega
        · obtain ⟨f0, hf0, hfe⟩ := List.mem_map.mp hmem
          exact ⟨f0, hf0, by rw [hfe, halign]⟩
      · simp only [StructInfo.size, StructInfo.alignment]
        exact Nat.dvd_of_mod_eq_zero (alignPad_mod _ _ hmaxpos)
      · simp only [StructInfo.fields, StructInfo.size]
        intro f hf
        have h1 : f.size ≤ size0 := by
          rw [hsz0]
          exact foldl_max_ge_mem _ _ _ (List.mem_map_of_mem _ hf)
        omega
      · simp only [StructInfo.fields, StructInfo.size, StructInfo.alignment]
        intro m hdvd hbound
        have hs0m : size0 ≤ m := by
          rcases foldl_max_attained (L.map FieldInfo.size) 0 with hzero | hmem
          · rw [hsz0, hzero]
            exact Nat.zero_le m
          · obtain ⟨f0, hf0, hfe⟩ := List.mem_map.mp hmem
            rw [hsz0, ← hfe] at *
            exact hbound f0 hf0
        set pad := (A - size0 % A) % A with hpad
        have hpadlt : pad < A := alignPad_lt _ _ hmaxpos
        have hdvdsz : A ∣ (size0 + pad) :=
          Nat.dvd_of_mod_eq_zero (alignPad_mod _ _ hmaxpos)
        by_contra hc
        push_neg at hc
        have hmlt : m < size0 + pad := hc
        have hdiff : A ∣ (size0 + pad - m) := Nat.dvd_sub' hdvdsz hdvd
        have hpos2 : 0 < size0 + pad - m := by omega
        have := Nat.le_of_dvd hpos2 hdiff
        omega

theorem build_unionInv (ops : List BuildOp)
    (hops : ∀ op ∈ ops, opAlignPos op = true) :
    unionInv (build true ops) := by
  refine foldl_invariant unionInv (fun op => opAlignPos op = true) _ _ ops ?_ ?_ hops
  · refine ⟨rfl, ?_, ?_⟩ <;>
      simp [StructInfo.fields, StructInfo.isUnion]
  · intro s op hP hQ
    obtain ⟨hu, hpos, _⟩ := hP
    have hpos2 := applyOp_alignPos s op hpos hQ
    have hu2 : (applyOp s op).isUnion = true := by rw [applyOp_isUnion, hu]
    cases happly : applyOp s op with
    | mk u2 sz2 al2 fields2 =>
      rw [happly] at hpos2 hu2
      simp only [StructInfo.isUnion] at hu2
      exact unionInv_calc u2 sz2 al2 fields2 hu2 (by
        intro f hf
        exact hpos2 f (by simpa [StructInfo.fields] using hf))

/-- C3: for every union layout with at least one field, every field's offset
is 0, the alignment equals the maximum field alignment, and the total size
is the smallest multiple of that alignment greater than or equal to the
maximum field size. -/
theorem C3_union_layout (ops : List BuildOp) (hne : ops ≠ [])
    (hops : ∀ op ∈ ops, opAlignPos op = true) :
    (∀ f ∈ (build true ops).fields, f.offset = 0)
    ∧ (∀ f ∈ (build true ops).fields, fieldAlignment f ≤ (build true ops).alignment)
    ∧ (∃ f ∈ (build true ops).fields, fieldAlignment f = (build true ops).alignment)
    ∧ (build true ops).alignment ∣ (build true ops).size
    ∧ (∀ f ∈ (build true ops).fields, f.size ≤ (build true ops).size)
    ∧ (∀ m, (build true ops).alignment ∣ m →
        (∀ f ∈ (build true ops).fields, f.size ≤ m) → (build true ops).size ≤ m) := by
  obtain ⟨_, _, h3⟩ := build_unionInv ops hops
  apply h3
  intro hc
  have := build_fields_length true ops
  rw [hc] at this
  simp at this
  exact hne (List.length_eq_zero.mp this.symm)

/-- C3 witness: a union of an int32 and an int64 field (alignment 8,
size 8, both offsets 0). -/
theorem C3_union_layout_witness :
    ([BuildOp.field "a" CTYPES_INT32 none false,
      BuildOp.field "b" CTYPES_INT64 none false] ≠ ([] : List BuildOp)
     ∧ ∀ op ∈ [BuildOp.field "a" CTYPES_INT32 none false,
          BuildOp.field "b" CTYPES_INT64 none false], opAlignPos op = true)
    ∧ ((∀ f ∈ (build true [BuildOp.field "a" CTYPES_INT32 none false,
          BuildOp.field "b" CTYPES_INT64 none false]).fields, f.offset = 0)
       ∧ (∀ f ∈ (build true [BuildOp.field "a" CTYPES_INT32 none false,
            BuildOp.field "b" CTYPES_INT64 none false]).fields,
            fieldAlignment f ≤ (build true [BuildOp.field "a" CTYPES_INT32 none false,
              BuildOp.field "b" CTYPES_INT64 none false]).alignment)
       ∧ (∃ f ∈ (build true [BuildOp.field "a" CTYPES_INT32 none false,
            BuildOp.field "b" CTYPES_INT64 none false]).fields,
            fieldAlignment f = (build true [BuildOp.field "a" CTYPES_INT32 none false,
              BuildOp.field "b" CTYPES_INT64 none false]).alignment)
       ∧ (build true [BuildOp.field "a" CTYPES_INT32 none false,
            BuildOp.field "b" CTYPES_INT64 none false]).alignment
          ∣ (build true [BuildOp.field "a" CTYPES_INT32 none false,
              BuildOp.field "b" CTYPES_INT64 none false]).size
       ∧ (∀ f ∈ (build true [BuildOp.field "a" CTYPES_INT32 none false,
            BuildOp.field "b" CTYPES_INT64 none false]).fields,
            f.size ≤ (build true [BuildOp.field "a" CTYPES_INT32 none false,
              BuildOp.field "b" CTYPES_INT64 none false]).size)
       ∧ (∀ m, (build true [BuildOp.field "a" CTYPES_INT32 none false,
            BuildOp.field "b" CTYPES_INT64 none false]).alignment ∣ m →
            (∀ f ∈ (build true [BuildOp.field "a" CTYPES_INT32 none false,
              BuildOp.field "b" CTYPES_INT64 none false]).fields, f.size ≤ m) →
            (build true [BuildOp.field "a" CTYPES_INT32 none false,
              BuildOp.field "b" CTYPES_INT64 none false]).size ≤ m)) :=
  ⟨⟨List.cons_ne_nil _ _, by decide⟩,
    C3_union_layout _ (List.cons_ne_nil _ _) (by decide)⟩

/-- C2 witness: the spec's own example struct with fields b : int8 and
x : int32 (offsets 0 and 4, size 8, alignment 4). -/
theorem C2_struct_layout_invariants_witness :
    (∀ op ∈ [BuildOp.field "b" CTYPES_INT8 none false,
             BuildOp.field "x" CTYPES_INT32 none false], opAlignPos op = true)
    ∧ ((∀ f ∈ (build false [BuildOp.field "b" CTYPES_INT8 none false,
                BuildOp.field "x" CTYPES_INT32 none false]).fields,
          f.offset % fieldAlignment f = 0)
       ∧ (build false [BuildOp.field "b" CTYPES_INT8 none false,
            BuildOp.field "x" CTYPES_INT32 none false]).fields.Pairwise
            (fun a b => a.offset ≤ b.offset)
       ∧ (build false [BuildOp.field "b" CTYPES_INT8 none false,
            BuildOp.field "x" CTYPES_INT32 none false]).size
          % (build false [BuildOp.field "b" CTYPES_INT8 none false,
              BuildOp.field "x" CTYPES_INT32 none false]).alignment = 0
       ∧ (build false [BuildOp.field "b" CTYPES_INT8 none false,
            BuildOp.field "x" CTYPES_INT32 none false]).alignment
          = ((build false [BuildOp.field "b" CTYPES_INT8 none false,
              BuildOp.field "x" CTYPES_INT32 none false]).fields.map
              fieldAlignment).foldl Nat.max 1) :=
  ⟨by decide, C2_struct_layout_invariants _ (by decide)⟩

/-
JavaScript values, as the source observes them through the N-API type
predicates (IsString, IsNumber, IsBigInt, IsBuffer, IsNull, IsUndefined,
IsObject, IsArray, IsFunction).  A JavaScript number is modelled as an
exact rational: every finite IEEE-754 double is a rational, and no claim in
this file depends on NaN or infinity.  A Buffer carries its backing-store
address and its byte contents.
-/
inductive JSValue where
  | undefined
  | null
  | boolean (b : Bool)
  | number (q : ℚ)
  | str (s : String)
  | bigint (i : Int)
  | buffer (addr : Nat) (data : List Nat)
  | jsArray (elems : List JSValue)
  | object (fields : List (String × JSValue))
  | jsFunc (id : Nat)

/-- ECMA ToNumber on the modelled values, as the external JS engine performs
it for the source's ToNumber() calls; none stands for NaN.  Numeric parsing
of strings and object coercion are engine behaviour outside this repository
and are modelled as NaN; no theorem below depends on them. -/
def toNumberQ : JSValue → Option ℚ
  | .number q => some q
  | .boolean b => some (if b then 1 else 0)
  | .null => some 0
  | _ => none

/-- Truncation toward zero of a rational, the double-to-integer conversion
direction used by the engine's Int32Value/Int64Value. -/
def qTrunc (q : ℚ) : Int := q.num.tdiv (q.den : Int)

/-- Reduce an integer to w-bit two's-complement (the modular wrap ECMA
ToInt32/ToUint32 perform, and the truncation N-API applies to BigInt). -/
def wrapSigned (w : Nat) (i : Int) : Int :=
  let m := i.emod ((2 : Int) ^ w)
  if m < (2 : Int) ^ (w - 1) then m else m - (2 : Int) ^ w

def clampInt64 (t : Int) : Int :=
  if t < -((2 : Int) ^ 63) then -((2 : Int) ^ 63)
  else if t > (2 : Int) ^ 63 - 1 then (2 : Int) ^ 63 - 1
  else t

/-- Int32Value of a coerced number (napi_get_value_int32 / ECMA ToInt32;
NaN gives 0). -/
def toInt32 (v : JSValue) : Int :=
  match toNumberQ v with
  | none => 0
  | some q => wrapSigned 32 (qTrunc q)

/-- Uint32Value of a coerced number (ECMA ToUint32; NaN gives 0). -/
def toUint32 (v : JSValue) : Nat :=
  match toNumberQ v with
  | none => 0
  | some q => ((qTrunc q).emod ((2 : Int) ^ 32)).toNat

/-- Int64Value of a coerced number (napi_get_value_int64: NaN gives 0,
out-of-range values clamp). -/
def toInt64 (v : JSValue) : Int :=
  match toNumberQ v with
  | none => 0
  | some q => clampInt64 (qTrunc q)

/-- ECMA ToBoolean (the source's ToBoolean() calls). -/
def toBooleanJS : JSValue → Bool
  | .undefined => false
  | .null => false
  | .boolean b => b
  | .number q => q != 0
  | .str s => s != ""
  | .bigint i => i != 0
  | .buffer _ _ => true
  | .jsArray _ => true
  | .object _ => true
  | .jsFunc _ => true

def isBufferJS : JSValue → Bool
  | .buffer _ _ => true
  | _ => false

/-- Napi::Value::IsObject: true for plain objects, arrays, buffers and
functions (everything of JS type object or function). -/
def isObjectJS : JSValue → Bool
  | .object _ => true
  | .jsArray _ => true
  | .buffer _ _ => true
  | .jsFunc _ => true
  | _ => false

/-- Named properties visible on a value treated as an object.  Buffers,
arrays and functions expose none of the struct field names in the model. -/
def objectProps : JSValue → List (String × JSValue)
  | .object ps => ps
  | _ => []

def utf8Bytes (s : String) : List Nat :=
  s.toUTF8.toList.map (fun b => b.toNat)

/-- First UTF-16 code unit of a string (Utf16Value()[0] in the source):
the code point itself for BMP characters, the high surrogate otherwise;
0 for the empty string. -/
def firstUtf16Unit (s : String) : Nat :=
  match s.data with
  | [] => 0
  | c :: _ =>
    let n := c.toNat
    if n < 0x10000 then n else 0xD800 + ((n - 0x10000) / 0x400)

/-- Little-endian byte image of the low 8*w bits of an integer (what the
source's memcpy of a w-byte scalar stores on a little-endian LP64 target). -/
def intToBytesLE (w : Nat) (i : Int) : List Nat :=
  (List.range w).map (fun k => ((i.emod ((2 : Int) ^ (8 * w))).toNat >>> (8 * k)) % 256)

/-- Pointer production order of the JSToC CTYPES_POINTER case
(src/src/types.cc): null/undefined, Buffer data address, BigInt address,
Number address; anything else leaves the initial nullptr. -/
def ptrFromJS : JSValue → Nat
  | .null => 0
  | .undefined => 0
  | .buffer addr _ => addr
  | .bigint i => (i.emod ((2 : Int) ^ 64)).toNat
  | .number q => ((clampInt64 (qTrunc q)).emod ((2 : Int) ^ 64)).toNat
  | _ => 0

/-- Placeholder for IEEE-754 bit images: floating-point bit patterns are not
statable in this embedding, so the model keeps only the write footprint
(4 resp. 8 bytes).  No theorem in this file depends on these byte values. -/
def f32bytes (_x : Option ℚ) : List Nat := List.replicate 4 0

def f64bytes (_x : Option ℚ) : List Nat := List.replicate 8 0

def floatDecodeQ (_bs : List Nat) : ℚ := 0

/-- JSToC from src/src/types.cc: converts a JS value into the byte image of
one C scalar.  Returns none where the C++ returns -1 (buffer too small, a
JS string for the c-string type, or a composite type reaching the default
branch); otherwise the bytes written (their length is the scalar's size). -/
def JSToC (v : JSValue) (t : CType) (bufsize : Nat) : Option (List Nat) :=
  match t with
  | CTYPES_VOID => some []
  | CTYPES_INT8 => if bufsize < 1 then none else some (intToBytesLE 1 (toInt32 v))
  | CTYPES_UINT8 => if bufsize < 1 then none else some (intToBytesLE 1 (toUint32 v))
  | CTYPES_INT16 => if bufsize < 2 then none else some (intToBytesLE 2 (toInt32 v))
  | CTYPES_UINT16 => if bufsize < 2 then none else some (intToBytesLE 2 (toUint32 v))
  | CTYPES_INT32 => if bufsize < 4 then none else some (intToBytesLE 4 (toInt32 v))
  | CTYPES_UINT32 => if bufsize < 4 then none else some (intToBytesLE 4 (toUint32 v))
  | CTYPES_INT64 =>
    if bufsize < 8 then none
    else some (intToBytesLE 8 (match v with
      | .bigint i => wrapSigned 64 i
      | _ => toInt64 v))
  | CTYPES_UINT64 =>
    if bufsize < 8 then none
    else some (intToBytesLE 8 (match v with
      | .bigint i => i
      | _ => toInt64 v))
  | CTYPES_FLOAT => if bufsize < 4 then none else some (f32bytes (toNumberQ v))
  | CTYPES_DOUBLE => if bufsize < 8 then none else some (f64bytes (toNumberQ v))
  | CTYPES_BOOL =>
    if bufsize < 1 then none
    else some [if toBooleanJS v then 1 else 0]
  | CTYPES_POINTER =>
    if bufsize < 8 then none
    else some (intToBytesLE 8 (ptrFromJS v))
  | CTYPES_STRING =>
    if bufsize < 8 then none
    else match v with
      | .null => some (intToBytesLE 8 0)
      | .undefined => some (intToBytesLE 8 0)
      | .buffer addr _ => some (intToBytesLE 8 addr)
      | .str _ => none
      | _ => some (intToBytesLE 8 0)
  | CTYPES_WSTRING =>
    if bufsize < 8 then none
    else match v with
      | .null => some (intToBytesLE 8 0)
      | .undefined => some (intToBytesLE 8 0)
      | .buffer addr _ => some (intToBytesLE 8 addr)
      | _ => some (intToBytesLE 8 0)
  | CTYPES_WCHAR =>
    if bufsize < 4 then none
    else match v with
      | .number _ => some (intToBytesLE 4 (toUint32 v))
      | .str s => some (intToBytesLE 4 (firstUtf16Unit s))
      | _ => some (intToBytesLE 4 0)
  | CTYPES_SIZE_T =>
    if bufsize < 8 then none
    else some (intToBytesLE 8 (match v with
      | .bigint i => i
      | _ => toInt64 v))
  | CTYPES_SSIZE_T =>
    if bufsize < 8 then none
    else some (intToBytesLE 8 (match v with
      | .bigint i => wrapSigned 64 i
      | _ => toInt64 v))
  | CTYPES_LONG =>
    if bufsize < 8 then none
    else some (intToBytesLE 8 (match v with
      | .bigint i => wrapSigned 64 i
      | _ => toInt64 v))
  | CTYPES_ULONG =>
    if bufsize < 8 then none
    else some (intToBytesLE 8 (match v with
      | .bigint i => i
      | _ => toInt64 v))
  | _ => none

def bytesToNatLE : List Nat → Nat
  | [] => 0
  | b :: rest => b % 256 + 256 * bytesToNatLE rest

def readLE (w : Nat) (bs : List Nat) : Nat := bytesToNatLE (bs.take w)

def decodeSigned (w : Nat) (bs : List Nat) : Int :=
  let n := readLE w bs
  if (n : Int) < (2 : Int) ^ (8 * w - 1) then (n : Int) else (n : Int) - (2 : Int) ^ (8 * w)

/-- CToJS from src/src/types.cc: decodes one C scalar from native bytes.
The CTYPES_STRING / CTYPES_WSTRING branches dereference native memory in
the C++ (scanning through the decoded pointer); the dereferenced contents
are not part of the byte-level model, so a non-null pointer decodes to an
unspecified string; no theorem depends on that string.  On LP64, LONG and
ULONG take the 8-byte BigInt branch. -/
def CToJS (bs : List Nat) (t : CType) : JSValue :=
  match t with
  | CTYPES_VOID => .undefined
  | CTYPES_INT8 => .number ((decodeSigned 1 bs : Int) : ℚ)
  | CTYPES_UINT8 => .number ((readLE 1 bs : Nat) : ℚ)
  | CTYPES_INT16 => .number ((decodeSigned 2 bs : Int) : ℚ)
  | CTYPES_UINT16 => .number ((readLE 2 bs : Nat) : ℚ)
  | CTYPES_INT32 => .number ((decodeSigned 4 bs : Int) : ℚ)
  | CTYPES_UINT32 => .number ((readLE 4 bs : Nat) : ℚ)
  | CTYPES_INT64 => .bigint (decodeSigned 8 bs)
  | CTYPES_UINT64 => .bigint ((readLE 8 bs : Nat) : Int)
  | CTYPES_FLOAT => .number (floatDecodeQ bs)
  | CTYPES_DOUBLE => .number (floatDecodeQ bs)
  | CTYPES_BOOL => .boolean (readLE 1 bs != 0)
  | CTYPES_POINTER =>
    if readLE 8 bs = 0 then .null else .bigint ((readLE 8 bs : Nat) : Int)
  | CTYPES_STRING =>
    if readLE 8 bs = 0 then .null else .str ""
  | CTYPES_WSTRING =>
    if readLE 8 bs = 0 then .null else .str ""
  | CTYPES_WCHAR => .number ((readLE 4 bs : Nat) : ℚ)
  | CTYPES_SIZE_T => .bigint ((readLE 8 bs : Nat) : Int)
  | CTYPES_SSIZE_T => .bigint (decodeSigned 8 bs)
  | CTYPES_LONG => .bigint (decodeSigned 8 bs)
  | CTYPES_ULONG => .bigint ((readLE 8 bs : Nat) : Int)
  | _ => .undefined

/-
Byte-buffer primitives.  A native buffer is a list of bytes; writeBytes is
memcpy(buffer + off, bs, bs.length).  The final take keeps the buffer's
length: a write running past the end of the destination would be undefined
behaviour in the C++, and every theorem below stays within bounds.
-/

def zeroList (n : Nat) : List Nat := List.replicate n 0

def writeBytes (buf : List Nat) (off : Nat) (bs : List Nat) : List Nat :=
  (buf.take off ++ bs ++ buf.drop (off + bs.length)).take buf.length

def listSlice (buf : List Nat) (off len : Nat) : List Nat := (buf.drop off).take len

/-- memset(buffer, 0, n). -/
def zeroFill (buf : List Nat) (n : Nat) : List Nat := writeBytes buf 0 (zeroList n)

/-- Napi::Object::Has on the modelled property list. -/
def jsHas (obj : List (String × JSValue)) (name : String) : Bool :=
  obj.any (fun p => p.1 = name)

/-- Napi::Object::Get (none when the property is absent). -/
def jsGet (obj : List (String × JSValue)) (name : String) : Option JSValue :=
  (obj.find? (fun p => p.1 = name)).map (fun p => p.2)

/-- Element loop of ArrayInfo::JSToArray for primitive elements
(src/src/array.cc): JSToC each element into its slot, failing the whole
conversion when an element conversion fails. -/
def jsArrayPrimElems (elementType : CType) (elementSize : Nat) :
    List JSValue → Nat → List Nat → List Nat × Bool
  | [], _, buf => (buf, true)
  | e :: rest, i, buf =>
    match JSToC e elementType elementSize with
    | none => (buf, false)
    | some bs => jsArrayPrimElems elementType elementSize rest (i + 1)
        (writeBytes buf (i * elementSize) bs)

mutual

/-- StructInfo::JSToStruct (src/src/struct.cc).  Fails (false) for a
destination smaller than the struct size before writing anything; otherwise
zero-fills size bytes and converts each field, skipping absent properties.
The returned buffer keeps whatever partial writes happened before a failure,
as in the C++ (which throws and returns false mid-loop). -/
def JSToStruct (s : StructInfo) (obj : List (String × JSValue))
    (buf : List Nat) (bufsize : Nat) : List Nat × Bool :=
  match s with
  | .mk _ size _ fields =>
    if bufsize < size then (buf, false)
    else jsToFields fields obj (zeroFill buf size)
termination_by (sizeOf s, 0)

/-- Per-field conversion loop of StructInfo::JSToStruct. -/
def jsToFields (fields : List FieldInfo) (obj : List (String × JSValue))
    (buf : List Nat) : List Nat × Bool :=
  match fields with
  | [] => (buf, true)
  | .mk name _ off fsize (.arr a) _ :: rest =>
    match jsGet obj name with
    | none => jsToFields rest obj buf
    | some v =>
      match JSToArray a v (listSlice buf off fsize) fsize with
      | (nb, true) => jsToFields rest obj (writeBytes buf off nb)
      | (nb, false) => (writeBytes buf off nb, false)
  | .mk name _ off fsize (.nested n) anon :: rest =>
    if anon then
      match JSToStruct n obj (listSlice buf off fsize) fsize with
      | (nb, true) => jsToFields rest obj (writeBytes buf off nb)
      | (nb, false) => (writeBytes buf off nb, false)
    else
      match jsGet obj name with
      | none => jsToFields rest obj buf
      | some v =>
        if isObjectJS v then
          match JSToStruct n (objectProps v) (listSlice buf off fsize) fsize with
          | (nb, true) => jsToFields rest obj (writeBytes buf off nb)
          | (nb, false) => (writeBytes buf off nb, false)
        else (buf, false)
  | .mk name type off fsize .prim _ :: rest =>
    match jsGet obj name with
    | none => jsToFields rest obj buf
    | some v =>
      match JSToC v type fsize with
      | none => (buf, false)
      | some bs => jsToFields rest obj (writeBytes buf off bs)
termination_by (sizeOf fields, 0)

/-- ArrayInfo::JSToArray (src/src/array.cc): capacity check, zero fill,
then per-element conversion from a JS array, a byte copy from a Buffer, or
a NUL-terminated copy from a string into a char array. -/
def JSToArray (a : ArrayInfo) (v : JSValue) (buf : List Nat) (bufsize : Nat) :
    List Nat × Bool :=
  match a with
  | .mk elementType count elementSize size _ elementStruct =>
    if bufsize < size then (buf, false)
    else
      let buf0 := zeroFill buf size
      match v with
      | .jsArray elems =>
        let copyLen := Nat.min elems.length count
        match elementStruct with
        | some es => jsArrayStructElems es (elems.take copyLen) 0 elementSize buf0
        | none => jsArrayPrimElems elementType elementSize (elems.take copyLen) 0 buf0
      | .buffer _ data =>
        (writeBytes buf0 0 (data.take (Nat.min data.length size)), true)
      | .str s =>
        if elementType = CTYPES_INT8 then
          let bytes := (utf8Bytes s).take (Nat.min (utf8Bytes s).length (count - 1))
          (writeBytes buf0 0 (bytes ++ [0]), true)
        else (buf0, false)
      | _ => (buf0, false)
termination_by (sizeOf a, 0)

/-- Element loop of ArrayInfo::JSToArray for struct elements.  In the C++
the IsObject branch is checked first and is also true for Buffers, so the
IsBuffer branch below is unreachable; it is kept to mirror the code.
Elements that are neither are silently skipped (left zero). -/
def jsArrayStructElems (es : StructInfo) (elems : List JSValue) (i : Nat)
    (elementSize : Nat) (buf : List Nat) : List Nat × Bool :=
  match elems with
  | [] => (buf, true)
  | e :: rest =>
    if isObjectJS e then
      if (JSToStruct es (objectProps e)
          (listSlice buf (i * elementSize) elementSize) elementSize).2 then
        jsArrayStructElems es rest (i + 1) elementSize
          (writeBytes buf (i * elementSize)
            (JSToStruct es (objectProps e)
              (listSlice buf (i * elementSize) elementSize) elementSize).1)
      else
        (writeBytes buf (i * elementSize)
          (JSToStruct es (objectProps e)
            (listSlice buf (i * elementSize) elementSize) elementSize).1, false)
    else if isBufferJS e then
      match e with
      | .buffer _ data =>
        if elementSize ≤ data.length then
          jsArrayStructElems es rest (i + 1) elementSize
            (writeBytes buf (i * elementSize) (data.take elementSize))
        else jsArrayStructElems es rest (i + 1) elementSize buf
      | _ => jsArrayStructElems es rest (i + 1) elementSize buf
    else jsArrayStructElems es rest (i + 1) elementSize buf
termination_by (sizeOf es, elems.length + 1)

end

theorem writeBytes_length (buf : List Nat) (off : Nat) (bs : List Nat) :
    (writeBytes buf off bs).length = buf.length := by
  simp only [writeBytes, List.length_take, List.length_append, List.length_drop,
    Nat.min_def]
  split <;> split <;> omega

theorem zeroFill_length (buf : List Nat) (n : Nat) :
    (zeroFill buf n).length = buf.length := writeBytes_length _ _ _

theorem jsArrayPrimElems_length (elementType : CType) (elementSize : Nat)
    (elems : List JSValue) (i : Nat) (buf : List Nat) :
    ((jsArrayPrimElems elementType elementSize elems i buf).1).length = buf.length := by
  induction elems generalizing i buf with
  | nil => simp [jsArrayPrimElems]
  | cons e rest ih =>
    simp only [jsArrayPrimElems]
    cases JSToC e elementType elementSize with
    | none => rfl
    | some bs =>
      simp only []
      rw [ih, writeBytes_length]

/-- Every function of the JSToStruct group returns a buffer of the input
buffer's length: all writes go through writeBytes, which preserves it. -/
theorem marshalLength :
    (∀ (s : StructInfo) (obj : List (String × JSValue)) (buf : List Nat) (bufsize : Nat),
        ((JSToStruct s obj buf bufsize).1).length = buf.length)
    ∧ (∀ (fields : List FieldInfo) (obj : List (String × JSValue)) (buf : List Nat),
        ((jsToFields fields obj buf).1).length = buf.length)
    ∧ (∀ (a : ArrayInfo) (v : JSValue) (buf : List Nat) (bufsize : Nat),
        ((JSToArray a v buf bufsize).1).length = buf.length)
    ∧ (∀ (es : StructInfo) (elems : List JSValue) (i elementSize : Nat) (buf : List Nat),
        ((jsArrayStructElems es elems i elementSize buf).1).length = buf.length) := by
  apply JSToStruct.mutual_induct
    (fun s obj buf bufsize => ((JSToStruct s obj buf bufsize).1).length = buf.length)
    (fun fields obj buf => ((jsToFields fields obj buf).1).length = buf.length)
    (fun a v buf bufsize => ((JSToArray a v buf bufsize).1).length = buf.length)
    (fun es elems i elementSize buf =>
      ((jsArrayStructElems es elems i elementSize buf).1).length = buf.length) <;>
    intros <;>
    first
    | (simp_all +zetaDelta [JSToStruct, jsToFields, JSToArray, jsArrayStructElems,
        jsArrayPrimElems_length, writeBytes_length, zeroFill_length]
       done)
    | (simp only [JSToStruct, jsToFields, JSToArray, jsArrayStructElems]
       split <;> first
        | omega
        | assumption
        | (simp_all +zetaDelta [writeBytes_length, zeroFill_length,
            jsArrayPrimElems_length]
           done))
    | (simp_all +zetaDelta [jsArrayStructElems, writeBytes_length]
       done)
    | (simp_all +zetaDelta [jsToFields, writeBytes_length]
       done)
    | (rw [jsArrayStructElems.eq_def]
       simp_all +zetaDelta [writeBytes_length]
       done)

theorem JSToStruct_length (s : StructInfo) (obj : List (String × JSValue))
    (buf : List Nat) (bufsize : Nat) :
    ((JSToStruct s obj buf bufsize).1).length = buf.length :=
  marshalLength.1 s obj buf bufsize

theorem JSToArray_length (a : ArrayInfo) (v : JSValue) (buf : List Nat) (bufsize : Nat) :
    ((JSToArray a v buf bufsize).1).length = buf.length :=
  marshalLength.2.2.1 a v buf bufsize

theorem listSlice_length_le (buf : List Nat) (off len : Nat) :
    (listSlice buf off len).length ≤ len := by
  simp only [listSlice, List.length_take]
  exact Nat.min_le_left _ _

theorem listSlice_length_eq (buf : List Nat) (off len : Nat)
    (h : off + len ≤ buf.length) : (listSlice buf off len).length = len := by
  simp only [listSlice, List.length_take, List.length_drop]
  exact Nat.min_eq_left (by omega)

theorem writeBytes_getElem_outside (buf : List Nat) (off : Nat) (bs : List Nat)
    (p : Nat) (hp : p < off ∨ off + bs.length ≤ p) :
    (writeBytes buf off bs)[p]? = buf[p]? := by
  by_cases hL : p < buf.length
  · unfold writeBytes
    rw [List.getElem?_take_of_lt hL]
    rcases hp with h | h
    · have h1 : p < (buf.take off).length := by
        rw [List.length_take]
        exact Nat.lt_min.mpr ⟨h, hL⟩
      have h2 : p < (buf.take off ++ bs).length := by
        rw [List.length_append]
        omega
      rw [List.getElem?_append_left h2, List.getElem?_append_left h1]
      exact List.getElem?_take_of_lt h
    · have hoffL : off < buf.length := by omega
      have hlen1 : (buf.take off).length = off := by
        rw [List.length_take]
        exact Nat.min_eq_left (by omega)
      have h2 : (buf.take off ++ bs).length ≤ p := by
        rw [List.length_append, hlen1]
        omega
      rw [List.getElem?_append_right h2, List.length_append, hlen1]
      rw [List.getElem?_drop]
      have : off + bs.length + (p - (off + bs.length)) = p := by omega
      rw [this]
  · have h1 : (writeBytes buf off bs)[p]? = none :=
      List.getElem?_eq_none_iff.mpr (by rw [writeBytes_length]; omega)
    have h2 : buf[p]? = none := List.getElem?_eq_none_iff.mpr (by omega)
    rw [h1, h2]

theorem writeBytes_getElem_in (buf : List Nat) (off : Nat) (bs : List Nat)
    (k : Nat) (hk : k < bs.length) (hbound : off + bs.length ≤ buf.length) :
    (writeBytes buf off bs)[off + k]? = bs[k]? := by
  unfold writeBytes
  have hp : off + k < buf.length := by omega
  rw [List.getElem?_take_of_lt hp]
  have hlen1 : (buf.take off).length = off := by
    rw [List.length_take]
    exact Nat.min_eq_left (by omega)
  have h2 : off + k < (buf.take off ++ bs).length := by
    rw [List.length_append, hlen1]
    omega
  rw [List.getElem?_append_left h2]
  rw [List.getElem?_append_right (by omega : (buf.take off).length ≤ off + k), hlen1]
  have hidx : off + k - off = k := by omega
  rw [hidx]

theorem zeroFill_getElem (buf : List Nat) (n p : Nat) (hp : p < n)
    (hn : n ≤ buf.length) : (zeroFill buf n)[p]? = some 0 := by
  unfold zeroFill
  have hk : p < (zeroList n).length := by simp [zeroList]; omega
  have hb : 0 + (zeroList n).length ≤ buf.length := by simp [zeroList]; omega
  have := writeBytes_getElem_in buf 0 (zeroList n) p hk hb
  simpa [zeroList, List.getElem?_replicate_of_lt hp] using this

theorem intToBytesLE_length (w : Nat) (i : Int) : (intToBytesLE w i).length = w := by
  simp [intToBytesLE]

/-- A successful JSToC writes exactly the scalar's size, which the checked
capacity bounds. -/
theorem jsToC_length (v : JSValue) (t : CType) (bufsize : Nat) (bs : List Nat)
    (h : JSToC v t bufsize = some bs) :
    bs.length = CTypeSize t ∧ CTypeSize t ≤ bufsize := by
  cases t <;>
    simp only [JSToC, CTypeSize] at h ⊢ <;>
    first
    | (simp_all
       done)
    | (split at h <;>
        first
        | exact Option.noConfusion h
        | (refine ⟨?_, by omega⟩
           first
           | (rw [← Option.some.inj h]
              first
              | exact intToBytesLE_length _ _
              | simp [f32bytes]
              | simp [f64bytes]
              | simp)
           | (cases v <;>
               first
               | exact Option.noConfusion h
               | (rw [← Option.some.inj h]
                  exact intToBytesLE_length _ _))))

theorem jsGet_none_of_not_has (obj : List (String × JSValue)) (n : String)
    (h : jsHas obj n = false) : jsGet obj n = none := by
  simp only [jsHas, List.any_eq_false, decide_eq_true_eq] at h
  simp only [jsGet, Option.map_eq_none', List.find?_eq_none, decide_eq_true_eq]
  exact h

/-- The field loop of JSToStruct does not write any byte outside the ranges
of the fields it actually converts: a position left of every field range, or
inside the range of a skipped (absent, non-anonymous) field only, keeps its
value. -/
theorem jsToFields_preserve (fields : List FieldInfo)
    (obj : List (String × JSValue)) (p : Nat)
    (h : ∀ g ∈ fields, (p < g.offset ∨ g.offset + g.size ≤ p)
          ∨ (jsGet obj g.name = none ∧ g.isAnonymous = false)) :
    ∀ buf : List Nat, ((jsToFields fields obj buf).1)[p]? = buf[p]? := by
  induction fields with
  | nil => intro buf; simp [jsToFields]
  | cons f rest ih =>
    intro buf
    have hf := h f (List.mem_cons_self f rest)
    have hrest := fun g hg => h g (List.mem_cons_of_mem f hg)
    have ihr := ih hrest
    cases f with
    | mk name type off fsize kind anon =>
      simp only [FieldInfo.offset, FieldInfo.size, FieldInfo.name,
        FieldInfo.isAnonymous] at hf
      cases kind with
      | arr a =>
        cases hg : jsGet obj name with
        | none =>
          simp only [jsToFields, hg]
          exact ihr buf
        | some v =>
          have hd : p < off ∨ off + fsize ≤ p := by
            rcases hf with h1 | h2
            · exact h1
            · rw [hg] at h2
              exact absurd h2.1 (by simp)
          simp only [jsToFields, hg]
          cases hres : JSToArray a v (listSlice buf off fsize) fsize with
          | mk nb flag =>
            have hnb : nb.length ≤ fsize := by
              have h1 := JSToArray_length a v (listSlice buf off fsize) fsize
              rw [hres] at h1
              exact le_trans (le_of_eq h1) (listSlice_length_le buf off fsize)
            have hwout : (writeBytes buf off nb)[p]? = buf[p]? :=
              writeBytes_getElem_outside buf off nb p (by omega)
            cases flag with
            | true =>
              simp only []
              rw [ihr (writeBytes buf off nb), hwout]
            | false =>
              simp only []
              exact hwout
      | nested n =>
        cases anon with
        | true =>
          have hd : p < off ∨ off + fsize ≤ p := by
            rcases hf with h1 | h2
            · exact h1
            · exact absurd h2.2 (by simp)
          simp only [jsToFields, if_true]
          cases hres : JSToStruct n obj (listSlice buf off fsize) fsize with
          | mk nb flag =>
            have hnb : nb.length ≤ fsize := by
              have h1 := JSToStruct_length n obj (listSlice buf off fsize) fsize
              rw [hres] at h1
              exact le_trans (le_of_eq h1) (listSlice_length_le buf off fsize)
            have hwout : (writeBytes buf off nb)[p]? = buf[p]? :=
              writeBytes_getElem_outside buf off nb p (by omega)
            cases flag with
            | true =>
              simp only []
              rw [ihr (writeBytes buf off nb), hwout]
            | false =>
              simp only []
              exact hwout
        | false =>
          simp only [jsToFields, Bool.false_eq_true, if_false]
          cases hg : jsGet obj name with
          | none =>
            simp only []
            exact ihr buf
          | some v =>
            have hd : p < off ∨ off + fsize ≤ p := by
              rcases hf with h1 | h2
              · exact h1
              · rw [hg] at h2
                exact absurd h2.1 (by simp)
            cases hio : isObjectJS v with
            | false => simp [hio]
            | true =>
              simp only [hio, if_true]
              cases hres : JSToStruct n (objectProps v) (listSlice buf off fsize) fsize with
              | mk nb flag =>
                have hnb : nb.length ≤ fsize := by
                  have h1 := JSToStruct_length n (objectProps v)
                    (listSlice buf off fsize) fsize
                  rw [hres] at h1
                  exact le_trans (le_of_eq h1) (listSlice_length_le buf off fsize)
                have hwout : (writeBytes buf off nb)[p]? = buf[p]? :=
                  writeBytes_getElem_outside buf off nb p (by omega)
                cases flag with
                | true =>
                  simp only []
                  rw [ihr (writeBytes buf off nb), hwout]
                | false =>
                  simp only []
                  exact hwout
      | prim =>
        cases hg : jsGet obj name with
        | none =>
          simp only [jsToFields, hg]
          exact ihr buf
        | some v =>
          have hd : p < off ∨ off + fsize ≤ p := by
            rcases hf with h1 | h2
            · exact h1
            · rw [hg] at h2
              exact absurd h2.1 (by simp)
          simp only [jsToFields, hg]
          cases hc : JSToC v type fsize with
          | none => simp only []
          | some bs =>
            obtain ⟨hl1, hl2⟩ := jsToC_length v type fsize bs hc
            have hwout : (writeBytes buf off bs)[p]? = buf[p]? :=
              writeBytes_getElem_outside buf off bs p (by omega)
            simp only []
            rw [ihr (writeBytes buf off bs), hwout]

/-- Core of C4, stated for a field list with pairwise-disjoint, in-bounds
field ranges (what CalculateLayout produces for a struct). -/
theorem jsToStruct_spec_core (u : Bool) (size al : Nat) (fields : List FieldInfo)
    (hpair : fields.Pairwise (fun a b => a.offset + a.size ≤ b.offset))
    (hbound : ∀ f ∈ fields, f.offset + f.size ≤ size)
    (obj : List (String × JSValue)) (buf : List Nat) (bufsize : Nat) :
    (bufsize < size →
      JSToStruct (.mk u size al fields) obj buf bufsize = (buf, false))
    ∧ (size ≤ bufsize → buf.length = bufsize →
      ∀ f ∈ fields, f.isAnonymous = false → jsHas obj f.name = false →
      ∀ k, k < f.size →
        ((JSToStruct (.mk u size al fields) obj buf bufsize).1)[f.offset + k]? = some 0) := by
  constructor
  · intro hlt
    simp [JSToStruct, hlt]
  · intro hge hlen f hmem hanon hhas k hk
    have hrun : JSToStruct (.mk u size al fields) obj buf bufsize
        = jsToFields fields obj (zeroFill buf size) := by
      simp [JSToStruct, Nat.not_lt.mpr hge]
    rw [hrun]
    obtain ⟨l1, l2, hsplit⟩ := List.append_of_mem hmem
    have hget : jsGet obj f.name = none := jsGet_none_of_not_has obj f.name hhas
    have hppos : f.offset + k < size := by
      have := hbound f hmem
      omega
    have hboundbuf : size ≤ buf.length := by omega
    rw [jsToFields_preserve fields obj (f.offset + k) ?_ (zeroFill buf size)]
    · exact zeroFill_getElem buf size (f.offset + k) hppos hboundbuf
    · intro g hg
      rw [hsplit] at hpair
      rw [List.pairwise_append] at hpair
      obtain ⟨hp1, hp2, hp12⟩ := hpair
      rw [hsplit] at hg
      rcases List.mem_append.mp hg with hgl | hgr
      · left
        right
        have := hp12 g hgl f (List.mem_cons_self f l2)
        omega
      · rcases List.mem_cons.mp hgr with hgf | hgl2
        · subst hgf
          right
          exact ⟨hget, hanon⟩
        · left
          left
          have := (List.pairwise_cons.mp hp2).1 g hgl2
          omega

/-- C4: for every struct layout and host record, writing the record into a
destination buffer of capacity below the layout's total size fails, returning
the buffer unchanged with an error; when the capacity suffices the
destination is zero-filled first, and every (non-anonymous) field absent
from the host record keeps its zero bytes — optional-field semantics. -/
theorem C4_struct_write_optional_fields (ops : List BuildOp)
    (hops : ∀ op ∈ ops, opAlignPos op = true)
    (obj : List (String × JSValue)) (buf : List Nat) (bufsize : Nat) :
    (bufsize < (build false ops).size →
      JSToStruct (build false ops) obj buf bufsize = (buf, false))
    ∧ ((build false ops).size ≤ bufsize → buf.length = bufsize →
      ∀ f ∈ (build false ops).fields, f.isAnonymous = false →
        jsHas obj f.name = false →
        ∀ k, k < f.size →
          ((JSToStruct (build false ops) obj buf bufsize).1)[f.offset + k]? = some 0) := by
  obtain ⟨_, _, _, hpair, hbound, _⟩ := build_structInv ops hops
  cases hb : build false ops with
  | mk u size al fields =>
    rw [hb] at hpair hbound
    simp only [StructInfo.fields] at hpair hbound
    simp only [StructInfo.size, StructInfo.fields]
    exact jsToStruct_spec_core u size al fields hpair
      (by simpa [StructInfo.size] using hbound) obj buf bufsize

/-- C4 witness: struct with int32 fields x and y, record providing only x,
an 8-byte destination. -/
theorem C4_struct_write_optional_fields_witness :
    (∀ op ∈ [BuildOp.field "x" CTYPES_INT32 none false,
             BuildOp.field "y" CTYPES_INT32 none false], opAlignPos op = true)
    ∧ ((8 < (build false [BuildOp.field "x" CTYPES_INT32 none false,
          BuildOp.field "y" CTYPES_INT32 none false]).size →
        JSToStruct (build false [BuildOp.field "x" CTYPES_INT32 none false,
          BuildOp.field "y" CTYPES_INT32 none false])
          [("x", JSValue.number 5)] (zeroList 8) 8 = (zeroList 8, false))
       ∧ ((build false [BuildOp.field "x" CTYPES_INT32 none false,
            BuildOp.field "y" CTYPES_INT32 none false]).size ≤ 8 →
          (zeroList 8).length = 8 →
          ∀ f ∈ (build false [BuildOp.field "x" CTYPES_INT32 none false,
              BuildOp.field "y" CTYPES_INT32 none false]).fields,
            f.isAnonymous = false →
            jsHas [("x", JSValue.number 5)] f.name = false →
            ∀ k, k < f.size →
              ((JSToStruct (build false [BuildOp.field "x" CTYPES_INT32 none false,
                  BuildOp.field "y" CTYPES_INT32 none false])
                [("x", JSValue.number 5)] (zeroList 8) 8).1)[f.offset + k]? = some 0)) :=
  ⟨by decide,
    C4_struct_write_optional_fields _ (by decide) [("x", JSValue.number 5)] (zeroList 8) 8⟩

/-
C6: auto-variadic type inference (FFIFunction::InferTypeFromJS,
src/src/function.cc).
-/

/-- Comparison d == static_cast<int32_t>(d) performed by InferTypeFromJS:
true exactly when the number is integral and representable in int32.  For
integral values outside the int32 range the C++ double-to-int32 cast is not
value-preserving on any supported target (x86 produces INT_MIN, ARM
saturates), so the comparison is false there. -/
def fitsInt32 (q : ℚ) : Bool :=
  q.den = 1 && decide ((-(2 ^ 31) : Int) ≤ q.num) && decide (q.num < 2 ^ 31)

/-- FFIFunction::InferTypeFromJS (src/src/function.cc): string, number
(int32 when d == (int32_t)d, double otherwise), bigint, buffer,
null/undefined, and the int32 fallback for everything else. -/
def InferTypeFromJS (val : JSValue) : CType :=
  match val with
  | .str _ => CTYPES_STRING
  | .number q => if fitsInt32 q then CTYPES_INT32 else CTYPES_DOUBLE
  | .bigint _ => CTYPES_INT64
  | .buffer _ _ => CTYPES_POINTER
  | .null => CTYPES_POINTER
  | .undefined => CTYPES_POINTER
  | _ => CTYPES_INT32

/-- C6 counterexample: 4294967296 = 2^32 is a number with integral value,
yet InferTypeFromJS infers double for it, not int32: the code compares the
number with its int32 cast, so integral values outside the int32 range
infer double. -/
theorem C6_integral_number_infers_double :
    (4294967296 : ℚ).den = 1
    ∧ InferTypeFromJS (.number 4294967296) = CTYPES_DOUBLE
    ∧ CTYPES_DOUBLE ≠ CTYPES_INT32 := by
  refine ⟨by norm_num, ?_, by decide⟩
  simp only [InferTypeFromJS]
  norm_num [fitsInt32]

/-- C6 (amended): the inferred type of each extra argument depends only on
the host value's runtime shape: a string infers c-string; a number equal to
its own int32 truncation (integral and inside the int32 range) infers
int32; any other number — non-integral or integral outside the int32
range — infers double; a big integer infers int64; a buffer infers pointer;
null and undefined infer pointer. -/
theorem C6_infer_type_from_shape :
    (∀ s, InferTypeFromJS (.str s) = CTYPES_STRING)
    ∧ (∀ q : ℚ, fitsInt32 q = true → InferTypeFromJS (.number q) = CTYPES_INT32)
    ∧ (∀ q : ℚ, fitsInt32 q = false → InferTypeFromJS (.number q) = CTYPES_DOUBLE)
    ∧ (∀ i, InferTypeFromJS (.bigint i) = CTYPES_INT64)
    ∧ (∀ addr data, InferTypeFromJS (.buffer addr data) = CTYPES_POINTER)
    ∧ InferTypeFromJS .null = CTYPES_POINTER
    ∧ InferTypeFromJS .undefined = CTYPES_POINTER := by
  refine ⟨fun s => rfl, ?_, ?_, fun i => rfl, fun a d => rfl, rfl, rfl⟩ <;>
    intro q h <;> simp [InferTypeFromJS, h]

theorem C6_infer_type_from_shape_witness :
    (fitsInt32 7 = true ∧ InferTypeFromJS (.number 7) = CTYPES_INT32)
    ∧ (fitsInt32 (Rat.mk' 5 2) = false
       ∧ InferTypeFromJS (.number (Rat.mk' 5 2)) = CTYPES_DOUBLE) :=
  ⟨⟨by decide, C6_infer_type_from_shape.2.1 7 (by decide)⟩,
   ⟨by decide, C6_infer_type_from_shape.2.2.1 (Rat.mk' 5 2) (by decide)⟩⟩

/-
C10: Callback object operations after release (src/src/callback.cc,
Callback::GetPointer / SetErrorHandler / GetLastError / Release).
-/

/-- Observable state of a Callback wrapper: whether data_ is non-null, the
atomic released flag, the closure code address, the last captured error
(empty string = none yet, as in the C++), and whether an error handler
reference is held. -/
structure CallbackObjState where
  hasData : Bool
  released : Bool
  codePtr : Nat
  lastError : String
  hasErrorHandler : Bool

/-- Outcome of a JS-facing method: a thrown exception or a returned value. -/
inductive JSOutcome where
  | thrown (msg : String)
  | value (v : JSValue)

/-- Callback::GetPointer: throws after release (or without data), otherwise
returns the trampoline address as a BigInt. -/
def Callback.GetPointer (st : CallbackObjState) : JSOutcome :=
  if !st.hasData || st.released then .thrown "Callback has been released"
  else .value (.bigint (st.codePtr : Int))

/-- Callback::Release: first transition flips released, frees the closure
and drops the function and error-handler references; it does not touch
last_error.  Idempotent. -/
def Callback.Release (st : CallbackObjState) : CallbackObjState :=
  if st.hasData && !st.released then
    { st with released := true, hasErrorHandler := false }
  else st

/-- Callback::SetErrorHandler: released check first, then the argument must
be a function. -/
def Callback.SetErrorHandler (st : CallbackObjState) (arg : Option JSValue) :
    JSOutcome × CallbackObjState :=
  if !st.hasData || st.released then (.thrown "Callback has been released", st)
  else match arg with
    | some (.jsFunc _) => (.value .undefined, { st with hasErrorHandler := true })
    | _ => (.thrown "Error handler must be a function", st)

/-- Callback::GetLastError: no released check; null without data or while
no error was captured, otherwise the stored message. -/
def Callback.GetLastError (st : CallbackObjState) : JSOutcome :=
  if !st.hasData then .value .null
  else if st.lastError = "" then .value .null
  else .value (.str st.lastError)

/-- C10: after a callback registration is released, GetPointer and
SetErrorHandler raise the has-been-released error, while GetLastError does
not check the released flag: it returns the last captured error message (or
null when none was captured), unchanged by Release. -/
theorem C10_released_callback_accessors (st : CallbackObjState)
    (arg : Option JSValue) (hdata : st.hasData = true) (hrel : st.released = true) :
    Callback.GetPointer st = .thrown "Callback has been released"
    ∧ (Callback.SetErrorHandler st arg).1 = .thrown "Callback has been released"
    ∧ (∀ st2 : CallbackObjState,
        Callback.GetLastError (Callback.Release st2) = Callback.GetLastError st2)
    ∧ Callback.GetLastError st
        = (if st.lastError = "" then .value .null else .value (.str st.lastError)) := by
  refine ⟨?_, ?_, ?_, ?_⟩
  · simp [Callback.GetPointer, hrel]
  · simp [Callback.SetErrorHandler, hrel]
  · intro st2
    simp only [Callback.Release]
    split <;> simp [Callback.GetLastError]
  · simp [Callback.GetLastError, hdata]

theorem C10_released_callback_accessors_witness :
    ((⟨true, true, 42, "boom", false⟩ : CallbackObjState).hasData = true
     ∧ (⟨true, true, 42, "boom", false⟩ : CallbackObjState).released = true)
    ∧ (Callback.GetPointer ⟨true, true, 42, "boom", false⟩
        = .thrown "Callback has been released"
       ∧ (Callback.SetErrorHandler ⟨true, true, 42, "boom", false⟩
            (some (.jsFunc 0))).1 = .thrown "Callback has been released"
       ∧ (∀ st2 : CallbackObjState,
            Callback.GetLastError (Callback.Release st2) = Callback.GetLastError st2)
       ∧ Callback.GetLastError ⟨true, true, 42, "boom", false⟩
          = (if ("boom" : String) = "" then JSOutcome.value .null
             else .value (.str "boom"))) :=
  ⟨⟨rfl, rfl⟩,
    C10_released_callback_accessors ⟨true, true, 42, "boom", false⟩
      (some (.jsFunc 0)) rfl rfl⟩

/-
C1: callback trampoline handlers (CallbackHandler and
ThreadSafeCallbackHandler, src/src/callback.cc).
-/

/-- State shared with CallbackHandler through user_data (src/src/callback.h):
flag, trampoline types, error handler presence, last error. -/
structure CallbackData where
  released : Bool
  return_type : CType
  arg_types : List CType
  hasErrorHandler : Bool
  last_error : String

/-- Host function registered behind the trampoline: a JS function that may
throw (error message) or return a value. -/
def HostFn : Type := List JSValue → Except String JSValue

/-- Observable effect of one trampoline invocation: the bytes written to
the native return slot, whether the JS host function was invoked, the last
error after the invocation, and whether the error handler ran or a warning
was emitted. -/
structure HandlerResult where
  ret : List Nat
  hostInvoked : Bool
  last_error : String
  errorHandlerInvoked : Bool
  warningEmitted : Bool

/-- CallbackHandler (src/src/callback.cc): the ffi_closure handler for the
single-thread Callback.  A released registration writes a zero-filled
return value (for non-void) and returns without touching the JS function;
otherwise it converts the native arguments, calls the JS function, captures
an exception as last error (routing it to the error handler or a process
warning) with a zero return, and converts the JS result back to C bytes,
zero-filling when the conversion fails. -/
def CallbackHandler (d : CallbackData) (host : HostFn)
    (args : List (List Nat)) : HandlerResult :=
  if d.released then
    { ret := if d.return_type ≠ CTYPES_VOID then zeroList (CTypeSize d.return_type) else [],
      hostInvoked := false, last_error := d.last_error,
      errorHandlerInvoked := false, warningEmitted := false }
  else
    let jsArgs := (args.zip d.arg_types).map (fun p => CToJS p.1 p.2)
    match host jsArgs with
    | .error msg =>
      { ret := if d.return_type ≠ CTYPES_VOID then zeroList (CTypeSize d.return_type) else [],
        hostInvoked := true, last_error := msg,
        errorHandlerInvoked := d.hasErrorHandler,
        warningEmitted := !d.hasErrorHandler }
    | .ok v =>
      if d.return_type = CTYPES_VOID then
        { ret := [], hostInvoked := true, last_error := d.last_error,
          errorHandlerInvoked := false, warningEmitted := false }
      else
        match JSToC v d.return_type (CTypeSize d.return_type) with
        | some bs =>
          { ret := if bs.length > 0 then bs else zeroList (CTypeSize d.return_type),
            hostInvoked := true, last_error := d.last_error,
            errorHandlerInvoked := false, warningEmitted := false }
        | none =>
          { ret := zeroList (CTypeSize d.return_type),
            hostInvoked := true, last_error := d.last_error,
            errorHandlerInvoked := false, warningEmitted := false }

/-- State behind ThreadSafeCallback (src/src/callback.h): the CallbackData
fields plus the synchronized result buffer of the cross-thread path. -/
structure TSCallbackData where
  released : Bool
  return_type : CType
  arg_types : List CType
  hasErrorHandler : Bool
  last_error : String
  result_buffer : List Nat

/-- ThreadSafeCallbackHandler (src/src/callback.cc).  isMainThread models
the this_thread-vs-main_thread_id comparison; releasedRecheck models the
second released.load taken after queueing state is prepared on the foreign
path (the release/in-flight race check); tsfnOk models the napi status of
BlockingCall.  The released check at entry zero-fills and returns without
touching the JS function on both paths. -/
def ThreadSafeCallbackHandler (d : TSCallbackData) (host : HostFn)
    (isMainThread : Bool) (releasedRecheck : Bool) (tsfnOk : Bool)
    (args : List (List Nat)) : HandlerResult :=
  let retSize := CTypeSize d.return_type
  if d.released then
    { ret := if d.return_type ≠ CTYPES_VOID then zeroList retSize else [],
      hostInvoked := false, last_error := d.last_error,
      errorHandlerInvoked := false, warningEmitted := false }
  else if isMainThread then
    let jsArgs := (args.zip d.arg_types).map (fun p => CToJS p.1 p.2)
    match host jsArgs with
    | .error msg =>
      { ret := if d.return_type ≠ CTYPES_VOID then zeroList retSize else [],
        hostInvoked := true, last_error := msg,
        errorHandlerInvoked := d.hasErrorHandler,
        warningEmitted := !d.hasErrorHandler }
    | .ok v =>
      if d.return_type = CTYPES_VOID then
        { ret := [], hostInvoked := true, last_error := d.last_error,
          errorHandlerInvoked := false, warningEmitted := false }
      else
        match JSToC v d.return_type retSize with
        | some bs =>
          { ret := if bs.length > 0 then bs else zeroList retSize,
            hostInvoked := true, last_error := d.last_error,
            errorHandlerInvoked := false, warningEmitted := false }
        | none =>
          { ret := zeroList retSize,
            hostInvoked := true, last_error := d.last_error,
            errorHandlerInvoked := false, warningEmitted := false }
  else if releasedRecheck then
    { ret := if d.return_type ≠ CTYPES_VOID then zeroList retSize else [],
      hostInvoked := false, last_error := d.last_error,
      errorHandlerInvoked := false, warningEmitted := false }
  else if !tsfnOk then
    { ret := if d.return_type ≠ CTYPES_VOID then zeroList retSize else [],
      hostInvoked := false, last_error := "Failed to queue callback",
      errorHandlerInvoked := false, warningEmitted := false }
  else
    let jsArgs := (args.zip d.arg_types).map (fun p => CToJS p.1 p.2)
    match host jsArgs with
    | .error msg =>
      { ret := if d.return_type ≠ CTYPES_VOID then
          (if retSize ≤ d.result_buffer.length then d.result_buffer.take retSize
           else zeroList retSize)
        else [],
        hostInvoked := true, last_error := msg,
        errorHandlerInvoked := d.hasErrorHandler,
        warningEmitted := !d.hasErrorHandler }
    | .ok v =>
      if d.return_type = CTYPES_VOID then
        { ret := [], hostInvoked := true, last_error := d.last_error,
          errorHandlerInvoked := false, warningEmitted := false }
      else
        let resized := (d.result_buffer ++ zeroList (retSize - d.result_buffer.length)).take retSize
        let buf2 := match JSToC v d.return_type retSize with
          | some bs => bs
          | none => resized
        { ret := if retSize ≤ buf2.length then buf2.take retSize else zeroList retSize,
          hostInvoked := true, last_error := d.last_error,
          errorHandlerInvoked := false, warningEmitted := false }

/-- C1: once the released flag is set, every invocation of either
trampoline handler writes a zero-filled return value when the declared
return type is non-void (nothing for void) and returns without invoking the
registered host function — on the single-thread Callback handler and on the
ThreadSafeCallback handler for any thread and race configuration. -/
theorem C1_released_trampoline_returns_zero (d : CallbackData)
    (td : TSCallbackData) (host : HostFn) (args : List (List Nat))
    (isMain rcheck tsfnOk : Bool)
    (hd : d.released = true) (htd : td.released = true) :
    (CallbackHandler d host args).hostInvoked = false
    ∧ (CallbackHandler d host args).ret
        = (if d.return_type ≠ CTYPES_VOID then zeroList (CTypeSize d.return_type) else [])
    ∧ (ThreadSafeCallbackHandler td host isMain rcheck tsfnOk args).hostInvoked = false
    ∧ (ThreadSafeCallbackHandler td host isMain rcheck tsfnOk args).ret
        = (if td.return_type ≠ CTYPES_VOID then zeroList (CTypeSize td.return_type)
           else []) := by
  refine ⟨?_, ?_, ?_, ?_⟩ <;>
    simp [CallbackHandler, ThreadSafeCallbackHandler, hd, htd]

theorem C1_released_trampoline_returns_zero_witness :
    ((⟨true, CTYPES_INT32, [CTYPES_INT32], false, ""⟩ : CallbackData).released = true
     ∧ (⟨true, CTYPES_INT32, [CTYPES_INT32], false, "", []⟩ : TSCallbackData).released = true)
    ∧ ((CallbackHandler ⟨true, CTYPES_INT32, [CTYPES_INT32], false, ""⟩
          (fun _ => .ok (.number 7)) [[1, 0, 0, 0]]).hostInvoked = false
       ∧ (CallbackHandler ⟨true, CTYPES_INT32, [CTYPES_INT32], false, ""⟩
            (fun _ => .ok (.number 7)) [[1, 0, 0, 0]]).ret
          = (if CTYPES_INT32 ≠ CTYPES_VOID then zeroList (CTypeSize CTYPES_INT32) else [])
       ∧ (ThreadSafeCallbackHandler ⟨true, CTYPES_INT32, [CTYPES_INT32], false, "", []⟩
            (fun _ => .ok (.number 7)) false false true [[1, 0, 0, 0]]).hostInvoked = false
       ∧ (ThreadSafeCallbackHandler ⟨true, CTYPES_INT32, [CTYPES_INT32], false, "", []⟩
            (fun _ => .ok (.number 7)) false false true [[1, 0, 0, 0]]).ret
          = (if CTYPES_INT32 ≠ CTYPES_VOID then zeroList (CTypeSize CTYPES_INT32)
             else [])) :=
  ⟨⟨rfl, rfl⟩,
    C1_released_trampoline_returns_zero
      ⟨true, CTYPES_INT32, [CTYPES_INT32], false, ""⟩
      ⟨true, CTYPES_INT32, [CTYPES_INT32], false, "", []⟩
      (fun _ => .ok (.number 7)) [[1, 0, 0, 0]] false false true rfl rfl⟩

/-
Call engine (src/src/function.cc / function.h): prepared call interfaces,
the variadic CIF cache, argument marshaling, Call and CallAsync.
-/

/-- Identity of a libffi type descriptor as used by the source (the
ffi_type_* singletons, or a custom struct descriptor built by GetFFIType).
The struct descriptor carries its size and alignment; its elements array
repeats the member descriptors and is not needed by any claim. -/
inductive FfiType where
  | fvoid
  | sint8
  | uint8
  | sint16
  | uint16
  | sint32
  | uint32
  | sint64
  | uint64
  | flt
  | dbl
  | pointer
  | structDesc (size : Nat) (alignment : Nat)
deriving DecidableEq

/-- CTypeToFFI from src/src/types.cc (LP64: wchar is 32-bit so uint32, long
is 8 bytes so sint64/uint64, size_t/ssize_t/string/wstring map to pointer;
the default branch — struct, union, array — returns ffi_type_void). -/
def CTypeToFFI : CType → FfiType
  | CTYPES_VOID => .fvoid
  | CTYPES_INT8 => .sint8
  | CTYPES_UINT8 => .uint8
  | CTYPES_INT16 => .sint16
  | CTYPES_UINT16 => .uint16
  | CTYPES_INT32 => .sint32
  | CTYPES_UINT32 => .uint32
  | CTYPES_INT64 => .sint64
  | CTYPES_UINT64 => .uint64
  | CTYPES_FLOAT => .flt
  | CTYPES_DOUBLE => .dbl
  | CTYPES_POINTER => .pointer
  | CTYPES_STRING => .pointer
  | CTYPES_WSTRING => .pointer
  | CTYPES_WCHAR => .uint32
  | CTYPES_BOOL => .uint8
  | CTYPES_SIZE_T => .pointer
  | CTYPES_SSIZE_T => .pointer
  | CTYPES_LONG => .sint64
  | CTYPES_ULONG => .uint64
  | _ => .fvoid

/-- StructInfo::GetFFIType / ArrayInfo::GetFFIType: a custom FFI_TYPE_STRUCT
descriptor carrying the computed size and alignment. -/
def StructInfo.GetFFIType (s : StructInfo) : FfiType := .structDesc s.size s.alignment

def ArrayInfo.GetFFIType (a : ArrayInfo) : FfiType := .structDesc a.size a.alignment

/-- State of an FFIFunction instance after construction (src/src/function.h):
declared argument types, return type, composite infos, and the ABI.  The
function pointer itself is external and enters the model through the native
function parameter of Call. -/
structure FFIFun where
  argTypes : List CType
  retType : CType
  retStruct : Option StructInfo
  retArray : Option ArrayInfo
  argStructs : List (Option StructInfo)
  argArrays : List (Option ArrayInfo)
  abi : Nat

/-- Return-type resolution of FFIFunction::PrepareFFI. -/
def FFIFun.ffiRetType (f : FFIFun) : FfiType :=
  if f.retType = CTYPES_STRUCT then
    match f.retStruct with
    | some s => s.GetFFIType
    | none => CTypeToFFI f.retType
  else if f.retType = CTYPES_ARRAY then
    match f.retArray with
    | some a => a.GetFFIType
    | none => CTypeToFFI f.retType
  else CTypeToFFI f.retType

/-- Per-argument type resolution of FFIFunction::PrepareFFI. -/
def argFfiType (t : CType) (si : Option StructInfo) (ai : Option ArrayInfo) : FfiType :=
  if t = CTYPES_STRUCT then
    match si with
    | some s => s.GetFFIType
    | none => CTypeToFFI t
  else if t = CTYPES_ARRAY then
    match ai with
    | some a => a.GetFFIType
    | none => CTypeToFFI t
  else CTypeToFFI t

def FFIFun.ffiArgTypes (f : FFIFun) : List FfiType :=
  (f.argTypes.zip (f.argStructs.zip f.argArrays)).map
    (fun p => argFfiType p.1 p.2.1 p.2.2)

/-- Identity of a prepared call interface: everything ffi_prep_cif /
ffi_prep_cif_var receives (ABI, fixed and total argument counts, return
type, argument types).  Two cifs prepared from equal keys describe the same
native call. -/
structure CifKey where
  abi : Nat
  nFixed : Nat
  nTotal : Nat
  ret : FfiType
  args : List FfiType
deriving DecidableEq

/-- Key of the cif the fast (non-variadic) path uses: the instance cif_
prepared by PrepareFFI. -/
def fixedKey (f : FFIFun) : CifKey :=
  { abi := f.abi, nFixed := f.argTypes.length, nTotal := f.argTypes.length,
    ret := f.ffiRetType, args := f.ffiArgTypes }

/-- Key of a derived variadic cif: ffi_prep_cif_var over the fixed ffi arg
types followed by CTypeToFFI of each inferred extra type. -/
def mkVarKey (f : FFIFun) (extras : List CType) : CifKey :=
  { abi := f.abi,
    nFixed := f.argTypes.length,
    nTotal := f.argTypes.length + extras.length,
    ret := f.ffiRetType,
    args := f.ffiArgTypes ++ extras.map CTypeToFFI }

/-- VariadicCifCache entry (src/src/function.h): total argument count, the
extra argument types, the prepared cif (as its key), and the valid flag. -/
structure VariadicCifCache where
  total_args : Nat
  extra_types : List CType
  cif : CifKey
  valid : Bool
deriving DecidableEq

def emptyCacheEntry : VariadicCifCache :=
  { total_args := 0, extra_types := [], cif := ⟨0, 0, 0, .fvoid, []⟩, valid := false }

/-- Mutable call state of an FFIFunction: the 16-entry variadic cif cache
array and the round-robin replacement cursor. -/
structure CallState where
  cache : List VariadicCifCache
  nextSlot : Nat
deriving DecidableEq

/-- State at construction: all cache entries invalid, cursor 0. -/
def emptyCallState : CallState :=
  { cache := List.replicate 16 emptyCacheEntry, nextSlot := 0 }

/-- Outcome of the variadic-cif section of FFIFunction::Call: the active
cif, the updated cache state, how many ffi_prep_cif_var calls ran (0 on a
cache hit; on a miss one for the ad-hoc cif plus one for the cached copy
when the shape is cached), and whether the cache was used. -/
structure DeriveResult where
  key : CifKey
  state : CallState
  constructions : Nat
  usedCache : Bool

/-- The cache-entry match of the lookup loop in FFIFunction::Call: a valid
entry whose total argument count and extra-type sequence equal the current
call's. -/
def cacheMatches (f : FFIFun) (extras : List CType) (e : VariadicCifCache) :
    Bool :=
  e.valid && e.total_args == f.argTypes.length + extras.length
    && e.extra_types == extras

/-- Variadic-cif lookup and construction in FFIFunction::Call
(src/src/function.cc): linear search for a valid entry with matching total
argument count and extra-type sequence; on a miss a fresh variadic cif is
prepared and, only when there are at most 4 extra arguments, stored at the
round-robin slot (advancing the cursor modulo 16). -/
def deriveVariadicCif (f : FFIFun) (extras : List CType) (st : CallState) :
    DeriveResult :=
  match st.cache.find? (cacheMatches f extras) with
  | some e => ⟨e.cif, st, 0, true⟩
  | none =>
    if extras.length ≤ 4 then
      ⟨mkVarKey f extras,
        { cache := st.cache.set st.nextSlot
            ⟨f.argTypes.length + extras.length, extras, mkVarKey f extras, true⟩,
          nextSlot := (st.nextSlot + 1) % 16 },
        2, false⟩
    else ⟨mkVarKey f extras, st, 1, false⟩

/-
Marshaled argument values.  The byte-level contents of each libffi argument
slot, with pointers into per-call scratch storage represented by the bytes
they point at (sync keeps them in the inline/heap string buffer, async in
the owned string buffer re-based by the fixup pass — both hold the same
contents for the duration of the native call).
-/
inductive ArgVal where
  | bytes (bs : List Nat)
  | scratchStr (bs : List Nat)
  | scratchWStr (ws : List Nat)
  | block (bs : List Nat)
  | rawSlot (w : Option (List Nat))
deriving DecidableEq

/-- UTF-16 code units of a string (Utf16Value()): code point for BMP
characters, surrogate pair otherwise.  On LP64 each unit is widened to one
32-bit wchar_t by the marshaler, exactly as the source's per-unit copy. -/
def utf16Units (s : String) : List Nat :=
  s.data.foldr (fun c acc =>
    let n := c.toNat
    if n < 0x10000 then n :: acc
    else (0xD800 + ((n - 0x10000) / 0x400)) :: (0xDC00 + ((n - 0x10000) % 0x400)) :: acc) []

/-- FFIFunction::MarshalPrimitive (src/src/function.cc), shared verbatim by
Call and CallAsync: handles every scalar type, returns none for the types
the switch does not cover (pointer, strings, composites, void).  The
napi_get_value_* calls behave like the ECMA coercions for numbers; their
behaviour on non-numbers is engine-defined and modelled by the same
deterministic coercion — shared by both call paths. -/
def MarshalPrimitive (val : JSValue) (t : CType) : Option (List Nat) :=
  match t with
  | CTYPES_INT32 => some (intToBytesLE 4 (toInt32 val))
  | CTYPES_UINT32 => some (intToBytesLE 4 (toUint32 val))
  | CTYPES_INT64 => some (intToBytesLE 8 (match val with
      | .bigint i => wrapSigned 64 i
      | _ => toInt64 val))
  | CTYPES_UINT64 => some (intToBytesLE 8 (match val with
      | .bigint i => wrapSigned 64 i
      | _ => toInt64 val))
  | CTYPES_SIZE_T => some (intToBytesLE 8 (match val with
      | .bigint i => wrapSigned 64 i
      | _ => toInt64 val))
  | CTYPES_SSIZE_T => some (intToBytesLE 8 (match val with
      | .bigint i => wrapSigned 64 i
      | _ => toInt64 val))
  | CTYPES_DOUBLE => some (f64bytes (toNumberQ val))
  | CTYPES_FLOAT => some (f32bytes (toNumberQ val))
  | CTYPES_BOOL => some [if toBooleanJS val then 1 else 0]
  | CTYPES_INT8 => some (intToBytesLE 1 (toInt32 val))
  | CTYPES_UINT8 => some (intToBytesLE 1 (toUint32 val))
  | CTYPES_INT16 => some (intToBytesLE 2 (toInt32 val))
  | CTYPES_UINT16 => some (intToBytesLE 2 (toUint32 val))
  | CTYPES_LONG => some (intToBytesLE 8 (match val with
      | .bigint i => wrapSigned 64 i
      | _ => toInt64 val))
  | CTYPES_ULONG => some (intToBytesLE 8 (match val with
      | .bigint i => wrapSigned 64 i
      | _ => toInt64 val))
  | _ => none

/-- FFIFunction::MarshalStructArg (src/src/function.cc), shared by both
paths: a Buffer at least as large as the struct is copied; an object with a
_buffer Buffer property likewise; any other object goes through JSToStruct
into the zero-initialised destination (the 16-byte slot or the overflow
buffer); anything else is a type error (none).  The block value keeps the
struct_size bytes the native call reads. -/
def MarshalStructArg (val : JSValue) (si : StructInfo) : Option ArgVal :=
  let structSize := si.size
  let destSize := if 16 < structSize then structSize else 16
  match val with
  | .buffer _ data =>
    if structSize ≤ data.length then some (.block (data.take structSize)) else none
  | v =>
    if isObjectJS v then
      match jsGet (objectProps v) "_buffer" with
      | some (.buffer _ data) =>
        if structSize ≤ data.length then some (.block (data.take structSize)) else none
      | _ =>
        match JSToStruct si (objectProps v) (zeroList destSize) destSize with
        | (nb, true) => some (.block (nb.take structSize))
        | (_, false) => none
    else none

/-- FFIFunction::MarshalArrayArg (src/src/function.cc), shared by both
paths. -/
def MarshalArrayArg (val : JSValue) (ai : ArrayInfo) : Option ArgVal :=
  let arraySize := ai.size
  let destSize := if 16 < arraySize then arraySize else 16
  match val with
  | .buffer _ data =>
    if arraySize ≤ data.length then some (.block (data.take arraySize)) else none
  | v =>
    match JSToArray ai v (zeroList destSize) destSize with
    | (nb, true) => some (.block (nb.take arraySize))
    | (_, false) => none

/-- One argument of the synchronous Call path (the marshaling loop of
FFIFunction::Call, src/src/function.cc): MarshalPrimitive fast path, then
the pointer / c-string / wide-string cases (strings go into the per-call
scratch storage), then struct/array via the shared helpers for declared
composite parameters, then the JSToC default whose error result the code
ignores. -/
def marshalArgSync (f : FFIFun) (i : Nat) (t : CType) (val : JSValue) :
    Option ArgVal :=
  match MarshalPrimitive val t with
  | some bs => some (.bytes bs)
  | none =>
    match t with
    | CTYPES_POINTER => some (.bytes (intToBytesLE 8 (ptrFromJS val)))
    | CTYPES_STRING =>
      match val with
      | .str s => some (.scratchStr (utf8Bytes s))
      | .buffer addr _ => some (.bytes (intToBytesLE 8 addr))
      | _ => some (.bytes (intToBytesLE 8 0))
    | CTYPES_WSTRING =>
      match val with
      | .str s => some (.scratchWStr (utf16Units s))
      | .buffer addr _ => some (.bytes (intToBytesLE 8 addr))
      | _ => some (.bytes (intToBytesLE 8 0))
    | CTYPES_STRUCT =>
      if i < f.argTypes.length then
        match f.argStructs.getD i none with
        | some si => MarshalStructArg val si
        | none => some (.rawSlot (JSToC val t 16))
      else some (.rawSlot (JSToC val t 16))
    | CTYPES_ARRAY =>
      if i < f.argTypes.length then
        match f.argArrays.getD i none with
        | some ai => MarshalArrayArg val ai
        | none => some (.rawSlot (JSToC val t 16))
      else some (.rawSlot (JSToC val t 16))
    | _ => some (.rawSlot (JSToC val t 16))

/-- One argument of the CallAsync marshaling phase (src/src/function.cc).
The pointer/string/wide-string cases are written out separately in the
async source (with buffer pinning and post-move fixups); their marshaled
values coincide with the synchronous ones. -/
def marshalArgAsync (f : FFIFun) (i : Nat) (t : CType) (val : JSValue) :
    Option ArgVal :=
  match MarshalPrimitive val t with
  | some bs => some (.bytes bs)
  | none =>
    match t with
    | CTYPES_POINTER => some (.bytes (intToBytesLE 8 (ptrFromJS val)))
    | CTYPES_STRING =>
      match val with
      | .str s => some (.scratchStr (utf8Bytes s))
      | .buffer addr _ => some (.bytes (intToBytesLE 8 addr))
      | _ => some (.bytes (intToBytesLE 8 0))
    | CTYPES_WSTRING =>
      match val with
      | .str s => some (.scratchWStr (utf16Units s))
      | .buffer addr _ => some (.bytes (intToBytesLE 8 addr))
      | _ => some (.bytes (intToBytesLE 8 0))
    | CTYPES_STRUCT =>
      if i < f.argTypes.length then
        match f.argStructs.getD i none with
        | some si => MarshalStructArg val si
        | none => some (.rawSlot (JSToC val t 16))
      else some (.rawSlot (JSToC val t 16))
    | CTYPES_ARRAY =>
      if i < f.argTypes.length then
        match f.argArrays.getD i none with
        | some ai => MarshalArrayArg val ai
        | none => some (.rawSlot (JSToC val t 16))
      else some (.rawSlot (JSToC val t 16))
    | _ => some (.rawSlot (JSToC val t 16))

mutual

/-- StructInfo::StructToJS (src/src/struct.cc): build a JS object with one
property per field; array fields via ArrayToJS, named nested structs as
nested objects, anonymous nested structs flattened into the parent (their
properties re-set on the parent object), primitives via CToJS. -/
def StructToJS (s : StructInfo) (buf : List Nat) : List (String × JSValue) :=
  match s with
  | .mk _ _ _ fields => structFieldsToJS fields buf
termination_by (sizeOf s, 0)

/-- Per-field loop of StructInfo::StructToJS. -/
def structFieldsToJS (fields : List FieldInfo) (buf : List Nat) :
    List (String × JSValue) :=
  match fields with
  | [] => []
  | .mk name _ off fsize (.arr a) _ :: rest =>
    (name, .jsArray (ArrayToJS a (listSlice buf off fsize))) ::
      structFieldsToJS rest buf
  | .mk name _ off fsize (.nested n) anon :: rest =>
    if anon then
      StructToJS n (listSlice buf off fsize) ++ structFieldsToJS rest buf
    else
      (name, .object (StructToJS n (listSlice buf off fsize))) ::
        structFieldsToJS rest buf
  | .mk name type off fsize .prim _ :: rest =>
    (name, CToJS (listSlice buf off fsize) type) :: structFieldsToJS rest buf
termination_by (sizeOf fields, 0)

/-- ArrayInfo::ArrayToJS (src/src/array.cc): a JS array of count elements,
struct elements via StructToJS, primitive elements via CToJS, each read at
its element offset. -/
def ArrayToJS (a : ArrayInfo) (buf : List Nat) : List JSValue :=
  match a with
  | .mk elementType count elementSize _ _ elementStruct =>
    match elementStruct with
    | some es => arrayElemsToJS es 0 count elementSize buf
    | none =>
      (List.range count).map (fun i =>
        CToJS (listSlice buf (i * elementSize) elementSize) elementType)
termination_by (sizeOf a, 0)

/-- Struct-element loop of ArrayInfo::ArrayToJS. -/
def arrayElemsToJS (es : StructInfo) (idx count elementSize : Nat)
    (buf : List Nat) : List JSValue :=
  match count with
  | 0 => []
  | c + 1 =>
    .object (StructToJS es (listSlice buf (idx * elementSize) elementSize)) ::
      arrayElemsToJS es (idx + 1) c elementSize buf
termination_by (sizeOf es, count + 1)

end

/-- FFIFunction::ConvertReturn (src/src/function.cc), shared by the
synchronous return conversion and CallWorker::OnOK: interprets the return
bytes per declared return type.  On LP64 long is i64 and size_t/ulong are
u64; string/wstring returns dereference native memory, which this embedding
keeps abstract (non-null decodes to an unconstrained string value, here the
empty one) — both call paths share this function verbatim.  wchar, ssize_t
and union fall to the default branch, CToJS. -/
def ConvertReturn (retBytes : List Nat) (t : CType) (si : Option StructInfo)
    (ai : Option ArrayInfo) : JSValue :=
  match t with
  | CTYPES_VOID => .undefined
  | CTYPES_INT32 => .number ((decodeSigned 4 retBytes : Int) : ℚ)
  | CTYPES_UINT32 => .number ((readLE 4 retBytes : Nat) : ℚ)
  | CTYPES_INT64 => .bigint (decodeSigned 8 retBytes)
  | CTYPES_UINT64 => .bigint ((readLE 8 retBytes : Nat) : Int)
  | CTYPES_SIZE_T => .bigint ((readLE 8 retBytes : Nat) : Int)
  | CTYPES_DOUBLE => .number (floatDecodeQ retBytes)
  | CTYPES_FLOAT => .number (floatDecodeQ retBytes)
  | CTYPES_BOOL => .boolean (readLE 1 retBytes != 0)
  | CTYPES_POINTER =>
    if readLE 8 retBytes = 0 then .null else .bigint ((readLE 8 retBytes : Nat) : Int)
  | CTYPES_STRING =>
    if readLE 8 retBytes = 0 then .null else .str ""
  | CTYPES_WSTRING =>
    if readLE 8 retBytes = 0 then .null else .str ""
  | CTYPES_LONG => .bigint (decodeSigned 8 retBytes)
  | CTYPES_ULONG => .bigint ((readLE 8 retBytes : Nat) : Int)
  | CTYPES_INT8 => .number ((decodeSigned 1 retBytes : Int) : ℚ)
  | CTYPES_UINT8 => .number ((readLE 1 retBytes : Nat) : ℚ)
  | CTYPES_INT16 => .number ((decodeSigned 2 retBytes : Int) : ℚ)
  | CTYPES_UINT16 => .number ((readLE 2 retBytes : Nat) : ℚ)
  | CTYPES_STRUCT =>
    match si with
    | some s => .object (StructToJS s retBytes)
    | none => .undefined
  | CTYPES_ARRAY =>
    match ai with
    | some a => .jsArray (ArrayToJS a retBytes)
    | none => .undefined
  | CTYPES_WCHAR => CToJS retBytes CTYPES_WCHAR
  | CTYPES_SSIZE_T => CToJS retBytes CTYPES_SSIZE_T
  | CTYPES_UNION => CToJS retBytes CTYPES_UNION

/-- The bound native function, abstractly: what ffi_call computes from the
prepared call interface and the marshaled argument slots — the bytes left
in the return buffer.  Both Call and CallAsync invoke the same fn_ptr_. -/
def NativeFn : Type := CifKey → List ArgVal → List Nat

/-- The JS-visible outcome of Call / of the settled CallAsync promise. -/
inductive CallResult where
  | notPrepared
  | tooFewArgs (expected got : Nat)
  | marshalFailed (idx : Nat)
  | ok (v : JSValue)

/-- The marshaling loop over (declared ++ inferred) types and the supplied
arguments, synchronous switch: stops at the first argument whose composite
marshal fails (the thrown-exception path). -/
def marshalLoopSync (f : FFIFun) (types : List CType) (args : List JSValue)
    (i : Nat) : Except Nat (List ArgVal) :=
  match types, args with
  | t :: ts, v :: vs =>
    match marshalArgSync f i t v with
    | none => .error i
    | some av =>
      match marshalLoopSync f ts vs (i + 1) with
      | .error j => .error j
      | .ok rest => .ok (av :: rest)
  | _, _ => .ok []

/-- The marshaling loop of CallAsync (phase 1, main thread). -/
def marshalLoopAsync (f : FFIFun) (types : List CType) (args : List JSValue)
    (i : Nat) : Except Nat (List ArgVal) :=
  match types, args with
  | t :: ts, v :: vs =>
    match marshalArgAsync f i t v with
    | none => .error i
    | some av =>
      match marshalLoopAsync f ts vs (i + 1) with
      | .error j => .error j
      | .ok rest => .ok (av :: rest)
  | _, _ => .ok []

/-- What a call leaves behind: its JS-visible result, the (possibly
updated) variadic cache state, and how many ffi_prep_cif_var constructions
ran. -/
structure SyncCallOutput where
  result : CallResult
  state : CallState
  constructions : Nat

/-- FFIFunction::Call (src/src/function.cc): prepared check; argument-count
check (thrown before type inference, cif derivation and marshaling);
variadic cif lookup/derivation when extra arguments are present; the
marshaling loop; ffi_call through the active cif; ConvertReturn; errcheck
applied to (result, this, args).  The errcheck hook is modelled as a
function of the result and the argument array it receives. -/
def CallSync (f : FFIFun) (prepared : Bool) (native : NativeFn)
    (errcheck : Option (JSValue → List JSValue → JSValue))
    (st : CallState) (args : List JSValue) : SyncCallOutput :=
  if !prepared then ⟨.notPrepared, st, 0⟩
  else
    let expected := f.argTypes.length
    if args.length < expected then ⟨.tooFewArgs expected args.length, st, 0⟩
    else
      -- extras is [] on the exact-count fast path, where the code skips
      -- inference and derivation entirely.
      let extras := (args.drop expected).map InferTypeFromJS
      let der :=
        if args.length = expected then (⟨fixedKey f, st, 0, false⟩ : DeriveResult)
        else deriveVariadicCif f extras st
      match marshalLoopSync f (f.argTypes ++ extras) args 0 with
      | .error i => ⟨.marshalFailed i, der.state, der.constructions⟩
      | .ok argVals =>
        let result := ConvertReturn (native der.key argVals) f.retType
          f.retStruct f.retArray
        match errcheck with
        | none => ⟨.ok result, der.state, der.constructions⟩
        | some chk => ⟨.ok (chk result args), der.state, der.constructions⟩

/-- FFIFunction::CallAsync + CallWorker (src/src/function.cc), as the value
the returned promise settles to: same prepared and argument-count checks,
a worker-owned variadic cif prepared fresh for every variadic call (the
cache is not consulted and not updated), the async marshaling phase on the
main thread, ffi_call on the worker thread, ConvertReturn in OnOK — and
errcheck applied to (result, undefined, []) since OnOK passes a fresh empty
array as the arguments (src/src/function.cc, CallWorker::OnOK). -/
def CallAsyncSettled (f : FFIFun) (prepared : Bool) (native : NativeFn)
    (errcheck : Option (JSValue → List JSValue → JSValue))
    (args : List JSValue) : CallResult :=
  if !prepared then .notPrepared
  else
    let expected := f.argTypes.length
    if args.length < expected then .tooFewArgs expected args.length
    else
      let extras := (args.drop expected).map InferTypeFromJS
      let key := if args.length = expected then fixedKey f else mkVarKey f extras
      match marshalLoopAsync f (f.argTypes ++ extras) args 0 with
      | .error i => .marshalFailed i
      | .ok argVals =>
        let result := ConvertReturn (native key argVals) f.retType
          f.retStruct f.retArray
        match errcheck with
        | none => .ok result
        | some chk => .ok (chk result [])

/-- Modelled from the spec: IntToCType is used throughout the sources
(addon.cc, function.cc, struct.cc) to validate a JS-supplied type tag, but
its definition is not among the provided files.  Per the spec's type
catalog, the numeric tags map positionally onto the C type enumeration of
src/src/types.h (0 = void .. 22 = array) and any value outside the valid
range fails with OutOfRangeType. -/
def IntToCType (n : Int) : Option CType :=
  match n with
  | 0 => some CTYPES_VOID
  | 1 => some CTYPES_INT8
  | 2 => some CTYPES_UINT8
  | 3 => some CTYPES_INT16
  | 4 => some CTYPES_UINT16
  | 5 => some CTYPES_INT32
  | 6 => some CTYPES_UINT32
  | 7 => some CTYPES_INT64
  | 8 => some CTYPES_UINT64
  | 9 => some CTYPES_FLOAT
  | 10 => some CTYPES_DOUBLE
  | 11 => some CTYPES_POINTER
  | 12 => some CTYPES_STRING
  | 13 => some CTYPES_WSTRING
  | 14 => some CTYPES_WCHAR
  | 15 => some CTYPES_BOOL
  | 16 => some CTYPES_SIZE_T
  | 17 => some CTYPES_SSIZE_T
  | 18 => some CTYPES_LONG
  | 19 => some CTYPES_ULONG
  | 20 => some CTYPES_STRUCT
  | 21 => some CTYPES_UNION
  | 22 => some CTYPES_ARRAY
  | _ => none

/-- Outcome of the raw-memory write helper: a thrown JS error, or the
number of bytes written returned as a JS number. -/
inductive WriteOutcome where
  | thrown (msg : String)
  | written (n : Nat)
deriving DecidableEq

/-- Pointer-argument parsing of CTypesAddon::WriteValue: Buffer data
address, losslessly converted BigInt, or Number through Int64Value. -/
def parseWritePtr : JSValue → Except String Nat
  | .buffer addr _ => .ok addr
  | .bigint i =>
    if 0 ≤ i ∧ i < 2 ^ 64 then .ok i.toNat
    else .error "BigInt conversion to pointer lost precision"
  | .number q => .ok ((clampInt64 (qTrunc q)).emod ((2 : Int) ^ 64)).toNat
  | _ => .error "Invalid pointer type"

/-- CTypesAddon::WriteValue (src/src/addon.cc): resolve the pointer
argument through parseWritePtr, validate the type tag via IntToCType, read
the optional non-negative offset, reject a null pointer, bounds-check
Buffer destinations, and delegate the byte write to JSToC — whose failure
becomes the thrown "Failed to write value". -/
def WriteValue (ptrArg typeArg valueArg : JSValue)
    (offsetArg : Option JSValue) : WriteOutcome :=
  match parseWritePtr ptrArg with
  | .error msg => .thrown msg
  | .ok ptr =>
    match typeArg with
    | .number q =>
      match IntToCType (toInt32 (.number q)) with
      | none => .thrown "OutOfRangeType"
      | some ctype =>
        let offset? : Option Nat :=
          match offsetArg with
          | some (.number oq) =>
            if clampInt64 (qTrunc oq) < 0 then none
            else some (clampInt64 (qTrunc oq)).toNat
          | _ => some 0
        match offset? with
        | none => .thrown "Offset must be non-negative"
        | some offset =>
          if ptr = 0 then .thrown "Cannot write to null pointer"
          else
            let type_size := CTypeSize ctype
            let boundsOk :=
              match ptrArg with
              | .buffer _ data => decide (offset + type_size ≤ data.length)
              | _ => true
            if !boundsOk then .thrown "Write would exceed buffer bounds"
            else
              match JSToC valueArg ctype type_size with
              | none => .thrown "Failed to write value"
              | some bs => .written bs.length
    | _ => .thrown "Type must be a CType enum value (number)"

/-- A one-argument int32 → int32 binding, as a concrete instance. -/
def exampleIntFun : FFIFun :=
  { argTypes := [CTYPES_INT32], retType := CTYPES_INT32, retStruct := none,
    retArray := none, argStructs := [none], argArrays := [none], abi := 2 }

/-- A zero-fixed-argument variadic binding, as a concrete instance. -/
def exampleVariadicFun : FFIFun :=
  { argTypes := [], retType := CTYPES_INT32, retStruct := none,
    retArray := none, argStructs := [], argArrays := [], abi := 2 }

/-- A native function that leaves a zeroed return buffer. -/
def zeroNative : NativeFn := fun _ _ => zeroList 8

/-- C5: for every prepared binding called with fewer arguments than
declared, both Call and CallAsync raise the argument-count error; the
variadic cache state is untouched, no call interface is constructed, and
the outcome does not depend on the bound native function (it is never
invoked) — the check precedes marshaling and the native call. -/
theorem C5_arg_count_checked_first (f : FFIFun) (native : NativeFn)
    (errcheck : Option (JSValue → List JSValue → JSValue))
    (st : CallState) (args : List JSValue)
    (hlt : args.length < f.argTypes.length) :
    (CallSync f true native errcheck st args).result
        = .tooFewArgs f.argTypes.length args.length
    ∧ (CallSync f true native errcheck st args).state = st
    ∧ (CallSync f true native errcheck st args).constructions = 0
    ∧ CallAsyncSettled f true native errcheck args
        = .tooFewArgs f.argTypes.length args.length
    ∧ ∀ native2 : NativeFn,
        CallSync f true native2 errcheck st args
          = CallSync f true native errcheck st args := by
  refine ⟨?_, ?_, ?_, ?_, ?_⟩ <;> try intro native2
  all_goals simp [CallSync, CallAsyncSettled, hlt]

theorem C5_arg_count_checked_first_witness :
    ([] : List JSValue).length < exampleIntFun.argTypes.length
    ∧ (CallSync exampleIntFun true zeroNative none emptyCallState []).result
        = .tooFewArgs exampleIntFun.argTypes.length ([] : List JSValue).length :=
  ⟨by decide,
   (C5_arg_count_checked_first exampleIntFun zeroNative none emptyCallState []
     (by decide)).1⟩

/-- C9: a JS string given to the byte-level marshaler JSToC for the
c-string type is rejected (the C++ returns -1) at every buffer size; the
call engine's own marshaling is what handles JS strings for c-string
arguments, routing them into per-call scratch storage; and a public
operation that routes a JS string through JSToC — the raw-memory write
helper — throws instead of writing a C string. -/
theorem C9_js_string_rejected_by_jsToC (s : String) (bufsize : Nat)
    (f : FFIFun) (i : Nat) (addr : Nat) (data : List Nat)
    (haddr : addr ≠ 0) (hlen : 8 ≤ data.length) :
    JSToC (.str s) CTYPES_STRING bufsize = none
    ∧ marshalArgSync f i CTYPES_STRING (.str s)
        = some (.scratchStr (utf8Bytes s))
    ∧ WriteValue (.buffer addr data) (.number 12) (.str s) none
        = .thrown "Failed to write value" := by
  refine ⟨by simp [JSToC], rfl, ?_⟩
  have htype : IntToCType (toInt32 (.number 12)) = some CTYPES_STRING := by decide
  have h8 : ¬ data.length < CTypeSize CTYPES_STRING := by
    simp [CTypeSize]; omega
  simp [WriteValue, htype, haddr, parseWritePtr, JSToC, h8]

theorem C9_js_string_rejected_by_jsToC_witness :
    (1 ≠ 0 ∧ 8 ≤ (zeroList 8).length)
    ∧ (JSToC (.str "hi") CTYPES_STRING 8 = none
      ∧ marshalArgSync exampleIntFun 0 CTYPES_STRING (.str "hi")
          = some (.scratchStr (utf8Bytes "hi"))
      ∧ WriteValue (.buffer 1 (zeroList 8)) (.number 12) (.str "hi") none
          = .thrown "Failed to write value") :=
  ⟨⟨by decide, by decide⟩,
   C9_js_string_rejected_by_jsToC "hi" 8 exampleIntFun 0 1 (zeroList 8)
     (by decide) (by decide)⟩

/-- The synchronous and asynchronous per-argument marshalers agree: the
pointer, c-string and wide-string cases are written out twice in the source
but compute the same slot values, and the primitive and composite cases go
through the shared helpers. -/
theorem marshalArg_sync_eq_async (f : FFIFun) (i : Nat) (t : CType)
    (v : JSValue) : marshalArgSync f i t v = marshalArgAsync f i t v := rfl

theorem marshalLoop_sync_eq_async (f : FFIFun) :
    ∀ (types : List CType) (args : List JSValue) (i : Nat),
      marshalLoopSync f types args i = marshalLoopAsync f types args i := by
  intro types
  induction types with
  | nil => intro args i; cases args <;> rfl
  | cons t ts ih =>
    intro args i
    cases args with
    | nil => rfl
    | cons v vs =>
      simp only [marshalLoopSync, marshalLoopAsync,
        marshalArg_sync_eq_async, ih]

theorem deriveVariadicCif_cache_length (f : FFIFun) (extras : List CType)
    (st : CallState) :
    (deriveVariadicCif f extras st).state.cache.length = st.cache.length := by
  cases hf : st.cache.find? (cacheMatches f extras) with
  | some e => simp [deriveVariadicCif, hf]
  | none =>
    by_cases h4 : extras.length ≤ 4 <;> simp [deriveVariadicCif, hf, h4]

theorem deriveVariadicCif_nextSlot (f : FFIFun) (extras : List CType)
    (st : CallState) :
    (deriveVariadicCif f extras st).state.nextSlot = st.nextSlot
    ∨ (deriveVariadicCif f extras st).state.nextSlot = (st.nextSlot + 1) % 16 := by
  cases hf : st.cache.find? (cacheMatches f extras) with
  | some e => left; simp [deriveVariadicCif, hf]
  | none =>
    by_cases h4 : extras.length ≤ 4
    · right; simp [deriveVariadicCif, hf, h4]
    · left; simp [deriveVariadicCif, hf, h4]

/-- After a miss stores a shape (at most 4 extras, in-range slot), the very
next lookup with the same shape hits: zero constructions and unchanged
state. -/
theorem deriveVariadicCif_second (f : FFIFun) (extras : List CType)
    (st : CallState) (hle : extras.length ≤ 4) (hlen : st.cache.length = 16)
    (hslot : st.nextSlot < 16) :
    (deriveVariadicCif f extras
        (deriveVariadicCif f extras st).state).constructions = 0
    ∧ (deriveVariadicCif f extras
        (deriveVariadicCif f extras st).state).state
        = (deriveVariadicCif f extras st).state := by
  cases hf : st.cache.find? (cacheMatches f extras) with
  | some e => simp [deriveVariadicCif, hf]
  | none =>
    have hs2 : st.nextSlot <
        (st.cache.set st.nextSlot
          ⟨f.argTypes.length + extras.length, extras, mkVarKey f extras,
            true⟩).length := by
      simp [hlen]; omega
    have hget : (st.cache.set st.nextSlot
        ⟨f.argTypes.length + extras.length, extras, mkVarKey f extras,
          true⟩)[st.nextSlot]
        = ⟨f.argTypes.length + extras.length, extras, mkVarKey f extras,
          true⟩ := by
      apply List.getElem_set_self
    have hget? : (st.cache.set st.nextSlot
        ⟨f.argTypes.length + extras.length, extras, mkVarKey f extras,
          true⟩)[st.nextSlot]?
        = some ⟨f.argTypes.length + extras.length, extras, mkVarKey f extras,
          true⟩ := by
      rw [List.getElem?_eq_getElem hs2, hget]
    have hmem : (⟨f.argTypes.length + extras.length, extras, mkVarKey f extras,
        true⟩ : VariadicCifCache)
        ∈ st.cache.set st.nextSlot
          ⟨f.argTypes.length + extras.length, extras, mkVarKey f extras,
            true⟩ := List.getElem?_mem hget?
    have hp : cacheMatches f extras
        ⟨f.argTypes.length + extras.length, extras, mkVarKey f extras, true⟩
        = true := by simp [cacheMatches]
    have hsome : ((st.cache.set st.nextSlot
        ⟨f.argTypes.length + extras.length, extras, mkVarKey f extras,
          true⟩).find? (cacheMatches f extras)).isSome :=
      List.find?_isSome.mpr ⟨_, hmem, hp⟩
    cases hf2 : (st.cache.set st.nextSlot
        ⟨f.argTypes.length + extras.length, extras, mkVarKey f extras,
          true⟩).find? (cacheMatches f extras) with
    | none => rw [hf2] at hsome; simp at hsome
    | some e2 => simp [deriveVariadicCif, hf, hle, hf2]

/-- On the variadic path of the synchronous Call, the cache state and the
construction count come from the variadic-cif derivation alone, whatever
the marshaling and the call produce. -/
theorem CallSync_variadic_sc (f : FFIFun) (native : NativeFn)
    (errcheck : Option (JSValue → List JSValue → JSValue))
    (st : CallState) (args : List JSValue)
    (h : f.argTypes.length < args.length) :
    (CallSync f true native errcheck st args).state
        = (deriveVariadicCif f
            ((args.drop f.argTypes.length).map InferTypeFromJS) st).state
    ∧ (CallSync f true native errcheck st args).constructions
        = (deriveVariadicCif f
            ((args.drop f.argTypes.length).map InferTypeFromJS) st).constructions := by
  have h1 : ¬ args.length < f.argTypes.length := by omega
  have h2 : ¬ args.length = f.argTypes.length := by omega
  refine ⟨?_, ?_⟩ <;>
    (simp only [CallSync, Bool.not_true, Bool.false_eq_true, if_false, h1,
       h2, ite_false, if_neg, not_false_eq_true]
     split <;> (try cases errcheck) <;> rfl)

/-- C7 counterexample: the source caches a derived variadic cif only when
there are at most 4 extra arguments (the `num_extra <= 4` guard in
src/src/function.cc).  A call with 5 extra arguments leaves the cache
untouched, so a second call with the exact same shape constructs a fresh
call interface again — the claim's "a second call with an already-seen
shape does not construct a new call interface" fails for that shape. -/
theorem C7_large_shape_never_cached :
    (CallSync exampleVariadicFun true zeroNative none emptyCallState
        (List.replicate 5 (.number 1))).constructions = 1
    ∧ (CallSync exampleVariadicFun true zeroNative none emptyCallState
        (List.replicate 5 (.number 1))).state = emptyCallState
    ∧ (CallSync exampleVariadicFun true zeroNative none
        (CallSync exampleVariadicFun true zeroNative none emptyCallState
          (List.replicate 5 (.number 1))).state
        (List.replicate 5 (.number 1))).constructions = 1 := by
  refine ⟨by decide, by decide, by decide⟩

/-- C7 (amended): repeated synchronous variadic calls with the same total
argument count and the same inferred extra-type sequence reuse one cached
call interface, provided the shape is cacheable (at most 4 extra
arguments): with a 16-entry table and an in-range cursor, the second
identical call constructs no call interface and leaves the state unchanged;
the table's size is preserved and the cursor either stays (hit) or advances
round-robin by one modulo 16 (miss). -/
theorem C7_variadic_cif_cache (f : FFIFun) (native : NativeFn)
    (errcheck : Option (JSValue → List JSValue → JSValue))
    (st : CallState) (args : List JSValue)
    (hvar : f.argTypes.length < args.length)
    (hextra : args.length - f.argTypes.length ≤ 4)
    (hlen : st.cache.length = 16) (hslot : st.nextSlot < 16) :
    (CallSync f true native errcheck
        (CallSync f true native errcheck st args).state args).constructions = 0
    ∧ (CallSync f true native errcheck
        (CallSync f true native errcheck st args).state args).state
        = (CallSync f true native errcheck st args).state
    ∧ (CallSync f true native errcheck st args).state.cache.length = 16
    ∧ ((CallSync f true native errcheck st args).state.nextSlot = st.nextSlot
       ∨ (CallSync f true native errcheck st args).state.nextSlot
           = (st.nextSlot + 1) % 16) := by
  have hle : ((args.drop f.argTypes.length).map InferTypeFromJS).length ≤ 4 := by
    simp; omega
  obtain ⟨hs1, hc1⟩ := CallSync_variadic_sc f native errcheck st args hvar
  obtain ⟨hs2, hc2⟩ := CallSync_variadic_sc f native errcheck
    (CallSync f true native errcheck st args).state args hvar
  obtain ⟨hA, hB⟩ := deriveVariadicCif_second f
    ((args.drop f.argTypes.length).map InferTypeFromJS) st hle hlen hslot
  refine ⟨?_, ?_, ?_, ?_⟩
  · rw [hc2, hs1]; exact hA
  · rw [hs2, hs1]; exact hB
  · rw [hs1, deriveVariadicCif_cache_length]; exact hlen
  · rw [hs1]; exact deriveVariadicCif_nextSlot f _ st

theorem C7_variadic_cif_cache_witness :
    (exampleVariadicFun.argTypes.length < ([.number 1] : List JSValue).length
      ∧ emptyCallState.cache.length = 16 ∧ emptyCallState.nextSlot < 16)
    ∧ ((CallSync exampleVariadicFun true zeroNative none
        (CallSync exampleVariadicFun true zeroNative none emptyCallState
          [.number 1]).state [.number 1]).constructions = 0
      ∧ (CallSync exampleVariadicFun true zeroNative none
          (CallSync exampleVariadicFun true zeroNative none emptyCallState
            [.number 1]).state [.number 1]).state
          = (CallSync exampleVariadicFun true zeroNative none emptyCallState
              [.number 1]).state
      ∧ (CallSync exampleVariadicFun true zeroNative none emptyCallState
          [.number 1]).state.cache.length = 16
      ∧ ((CallSync exampleVariadicFun true zeroNative none emptyCallState
            [.number 1]).state.nextSlot = emptyCallState.nextSlot
         ∨ (CallSync exampleVariadicFun true zeroNative none emptyCallState
              [.number 1]).state.nextSlot
             = (emptyCallState.nextSlot + 1) % 16)) :=
  ⟨⟨by decide, by decide, by decide⟩,
   C7_variadic_cif_cache exampleVariadicFun zeroNative none emptyCallState
     [.number 1] (by decide) (by decide) (by decide) (by decide)⟩

/-- Every valid cache entry was stored by a previous variadic derivation:
its cif was prepared from this binding's fixed types plus the entry's extra
types, and its total count is consistent.  This holds for the empty state
and is preserved by deriveVariadicCif. -/
def cacheConsistent (f : FFIFun) (st : CallState) : Prop :=
  ∀ e ∈ st.cache, e.valid = true →
    e.cif = mkVarKey f e.extra_types
    ∧ e.total_args = f.argTypes.length + e.extra_types.length

/-- C8 counterexample: with an errcheck hook installed, the synchronous
path calls it with the original argument array (ApplyErrcheck in
src/src/function.cc) while the async worker's OnOK calls it with a fresh
empty array (`Napi::Array::New(env, 0)`), so a hook that inspects its
arguments observes different inputs and the two paths return different
values for the same call. -/
theorem C8_errcheck_args_differ :
    (CallSync exampleIntFun true zeroNative
        (some (fun _ args => .bigint (args.length : Int))) emptyCallState
        [.number 1]).result
      = .ok (.bigint ((1 : Nat) : Int))
    ∧ CallAsyncSettled exampleIntFun true zeroNative
        (some (fun _ args => .bigint (args.length : Int))) [.number 1]
      = .ok (.bigint ((0 : Nat) : Int))
    ∧ (CallResult.ok (.bigint ((1 : Nat) : Int))
        ≠ CallResult.ok (.bigint ((0 : Nat) : Int))) := by
  refine ⟨rfl, rfl, ?_⟩
  intro h
  injection h with h1
  injection h1 with h2
  exact absurd h2 (by decide)

/-- With a consistent cache, the derived variadic cif's key is the one a
fresh preparation over the same types would produce: a hit returns a cif
stored from equal inputs, a miss prepares exactly that cif. -/
theorem deriveVariadicCif_key (f : FFIFun) (extras : List CType)
    (st : CallState) (hwf : cacheConsistent f st) :
    (deriveVariadicCif f extras st).key = mkVarKey f extras := by
  cases hf : st.cache.find? (cacheMatches f extras) with
  | none =>
    by_cases h4 : extras.length ≤ 4 <;> simp [deriveVariadicCif, hf, h4]
  | some e =>
    have hp := List.find?_some hf
    have hmem := List.mem_of_find?_eq_some hf
    simp only [cacheMatches, Bool.and_eq_true, beq_iff_eq] at hp
    have hcif := (hwf e hmem hp.1.1).1
    simp [deriveVariadicCif, hf, hcif, hp.2]

/-- C8 (amended): with no errcheck hook installed, the synchronous Call
and the awaited CallAsync return the same value for the same arguments,
given a consistent variadic cache: both check preparedness and argument
count identically, marshal every argument to the same slot values, reach
the native function through an equal call interface (the cached cif equals
the fresh worker-owned one by cache consistency), and share ConvertReturn. -/
theorem C8_sync_async_agree (f : FFIFun) (prepared : Bool)
    (native : NativeFn) (st : CallState) (args : List JSValue)
    (hwf : cacheConsistent f st) :
    (CallSync f prepared native none st args).result
      = CallAsyncSettled f prepared native none args := by
  cases prepared with
  | false => rfl
  | true =>
    rcases Nat.lt_trichotomy args.length f.argTypes.length with hlt | heq | hgt
    · simp [CallSync, CallAsyncSettled, hlt]
    · have h1 : ¬ args.length < f.argTypes.length := by omega
      simp only [CallSync, CallAsyncSettled, Bool.not_true,
        Bool.false_eq_true, if_false, h1, not_false_eq_true, if_neg,
        ite_false, heq, lt_self_iff_false, eq_self_iff_true, if_true,
        ite_true, marshalLoop_sync_eq_async]
      split <;> rfl
    · have h1 : ¬ args.length < f.argTypes.length := by omega
      have h2 : ¬ args.length = f.argTypes.length := by omega
      simp only [CallSync, CallAsyncSettled, Bool.not_true,
        Bool.false_eq_true, if_false, h1, h2, not_false_eq_true, if_neg,
        ite_false, marshalLoop_sync_eq_async,
        deriveVariadicCif_key f ((args.drop f.argTypes.length).map InferTypeFromJS) st hwf]
      split <;> rfl

theorem C8_sync_async_agree_witness :
    cacheConsistent exampleIntFun emptyCallState
    ∧ (CallSync exampleIntFun true zeroNative none emptyCallState
        [.number 1]).result
      = CallAsyncSettled exampleIntFun true zeroNative none [.number 1] :=
  have hwf : cacheConsistent exampleIntFun emptyCallState := by
    intro e he hv
    have he' : e = emptyCacheEntry := by
      simpa [emptyCallState, List.mem_replicate] using he
    rw [he'] at hv
    simp [emptyCacheEntry] at hv
  ⟨hwf, C8_sync_async_agree exampleIntFun true zeroNative emptyCallState
     [.number 1] hwf⟩

end NodeCtypes
